import Mathlib

/-!
# BIC-2200 CAN register transport

A shallow embedding of `src/bic2200.cpp` and `src/bic2200.h`: the register
request and reply exchange of the `BIC2200` class (`begin`,
`_getRegisterValue`, `_setRegisterValue`) and the integer getters built on it.

The CAN controller object `CAN` and the Arduino clock `micros()` are external
collaborators. Their answers are inputs of the model (`Env`), and every call
the code makes to them is recorded, in order, in a log of `Event`s.
-/

/-! ## Target integer widths -/

/-- Width of the C++ type `int` (and `unsigned int`) on the board the sketch is
built for: 16 bits on the AVR boards, 32 bits on the ARM boards. -/
inductive IntWidth where
  | w16
  | w32
  deriving DecidableEq, Repr

/-- Number of bits of `int`. -/
def IntWidth.bits : IntWidth → Nat
  | .w16 => 16
  | .w32 => 32

/-- Value of an `int` expression after two's complement wrap-around. -/
def wrapInt (w : IntWidth) (x : Int) : Int :=
  (x + 2 ^ (w.bits - 1)) % 2 ^ w.bits - 2 ^ (w.bits - 1)

/-- Value of an `unsigned int` expression: reduction modulo `2 ^ bits`. -/
def wrapUInt (w : IntWidth) (x : Int) : Nat :=
  (x % 2 ^ w.bits).toNat

/-- Conversion of an `unsigned long` (32 bits) to `long`. -/
def toLong (x : Nat) : Int :=
  if x % 2 ^ 32 < 2 ^ 31 then (x % 2 ^ 32 : Nat) else ((x % 2 ^ 32 : Nat) : Int) - 2 ^ 32

/-- Arduino `lowByte(w)`: `(uint8_t) ((w) & 0xff)`. -/
def lowByte (w : Int) : Nat := (w % 256).toNat

/-- Arduino `highByte(w)`: `(uint8_t) ((w) >> 8)`. -/
def highByte (w : Int) : Nat := ((w / 256) % 256).toNat

/-! ## Constants of `bic2200.h` -/

def CMD_OPERATION : Int := 0x0000
def CMD_VOUT_SET : Int := 0x0020
def CMD_IOUT_SET : Int := 0x0030
def CMD_FAULT_STATUS : Int := 0x0040
def CMD_READ_VIN : Int := 0x0050
def CMD_READ_VOUT : Int := 0x0060
def CMD_READ_IOUT : Int := 0x0061
def CMD_READ_TEMPERATURE_1 : Int := 0x0062
def CMD_SCALING_FACTOR : Int := 0x00C0
def CMD_SYSTEM_STATUS : Int := 0x00C1
def CMD_SYSTEM_CONFIG : Int := 0x00C2
def CMD_DIRECTION_CTRL : Int := 0x0100
def CMD_REVERSE_VOUT_SET : Int := 0x0120
def CMD_REVERSE_IOUT_SET : Int := 0x0130
def CMD_BIDIRECTIONAL_CONFIG : Int := 0x0140

def MSG_ID_CAN_SEND_00 : Nat := 0x000C0300
def MSG_ID_CAN_RECEIVE_00 : Nat := 0x000C0200

def CAN_BAUDRATE : Nat := 250000
def CAN_CLK_FREQUENCY : Nat := 8000000
def CAN_TIMEOUT : Nat := 500

/-! ## Collaborators -/

/-- One call made to a collaborator, with the value it was given or returned.
`CAN.available()` is a query without effect and is not logged. -/
inductive Event where
  | setPins (cs : Int)
  | setClockFrequency (hz : Nat)
  | canBegin (baud : Nat)
  | beginExtendedPacket (id : Int)
  | write (b : Nat)
  | endPacket
  | micros (t : Nat)
  | parsePacket (size : Int)
  | packetId (id : Int)
  | read (b : Nat)
  deriving DecidableEq, Repr

/-- Events that belong to the emission of a frame. -/
def Event.isSend : Event → Bool
  | .beginExtendedPacket _ => true
  | .write _ => true
  | .endPacket => true
  | _ => false

/-- What the controller answers to one `CAN.parsePacket()`: the returned packet
size, the value `CAN.packetId()` has afterwards, and the bytes that
`CAN.read()` hands out while `CAN.available()` is non-zero. -/
structure Poll where
  packetSize : Int
  packetId : Int
  avail : List Nat

/-- The answer of a controller that has no frame pending. -/
def Poll.idle : Poll := { packetSize := 0, packetId := -1, avail := [] }

/-- The frame test of the poll loop: `packetSize || CAN.packetId() != -1`. -/
def Poll.arrived (p : Poll) : Bool :=
  decide (p.packetSize ≠ 0) || decide (p.packetId ≠ -1)

/-- A data frame with the given identifier and body. -/
def Poll.frame (id : Int) (body : List Nat) : Poll :=
  { packetSize := body.length, packetId := id, avail := body }

/-- Inputs of one register read.
* `clock k` is the reading of the `k`-th call of `micros()` (call 0 sets
  `startTime`), reduced to 32 bits by the model;
* `bus k` is the answer to the `k`-th call of `CAN.parsePacket()`;
* `stack j` is the content of the memory cell `data_received[j]` when the
  function is entered (the array is not initialised by the code);
* `caller j` is the content of the cell `data[j]` of the caller's array. -/
structure Env where
  clock : Nat → Nat
  bus : Nat → Poll
  stack : Nat → Nat
  caller : Nat → Nat

/-- Elapsed time `micros() - startTime` in `unsigned long` arithmetic. -/
def elapsed (now startTime : Nat) : Nat :=
  (now % 2 ^ 32 + 2 ^ 32 - startTime % 2 ^ 32) % 2 ^ 32

/-! ## The object -/

/-- Private members of the class `BIC2200`. -/
structure BIC2200 where
  _CS : Int
  _CAN_ID_RECEIVE : Nat
  _CAN_ID_SEND : Nat
  deriving DecidableEq, Repr

/-- Outcome of `begin`: the object, the returned `int`, the collaborator calls. -/
structure BeginResult where
  self : BIC2200
  ret : Int
  log : List Event

namespace BIC2200

/-- Member function `BIC2200::begin`. The parameter `CAN_Adress` has type `byte`; `canBegin` is
what `CAN.begin(CAN_BAUDRATE)` returns. -/
def begin (self : BIC2200) (CS_Pin : Int) (CAN_Adress : Nat) (canBegin : Int) : BeginResult :=
  let s : BIC2200 :=
    { self with
      _CS := CS_Pin
      _CAN_ID_SEND := (MSG_ID_CAN_SEND_00 + CAN_Adress % 256) % 2 ^ 32
      _CAN_ID_RECEIVE := (MSG_ID_CAN_RECEIVE_00 + CAN_Adress % 256) % 2 ^ 32 }
  { self := s
    ret := canBegin
    log := [Event.setPins s._CS, Event.setClockFrequency CAN_CLK_FREQUENCY,
            Event.canBegin CAN_BAUDRATE] }

/-- Member function `BIC2200::_setRegisterValue`. `data` is the pointed-to memory, `len` the
`int` length; the function returns `void`, so its whole effect is the log. -/
def _setRegisterValue (self : BIC2200) (reg : Int) (data : Nat → Nat) (len : Int) : List Event :=
  [Event.beginExtendedPacket (toLong self._CAN_ID_SEND),
   Event.write (lowByte reg), Event.write (highByte reg)]
  ++ (List.range len.toNat).map (fun i => Event.write (data i % 256))
  ++ [Event.endPacket]

/-- Local variables of `_getRegisterValue` together with what it has done so
far: `stores` lists the assignments `data[i] = b` as pairs `(i, b)`. -/
structure LoopState where
  index : Nat
  retVal : Int
  blnDataValid : Bool
  data_received : Nat → Nat
  stores : List (Nat × Nat)
  log : List Event

/-- Assignment `buf[i] = b` to a `byte` cell. -/
def setByte (buf : Nat → Nat) (i b : Nat) : Nat → Nat :=
  fun j => if j = i then b % 256 else buf j

/-- The drain loop `while (CAN.available() && index < 8)`. -/
def drain : List Nat → LoopState → LoopState
  | [], st => st
  | b :: rest, st =>
    if st.index < 8 then
      drain rest
        { st with
          data_received := setByte st.data_received st.index b
          index := st.index + 1
          log := st.log ++ [Event.read b] }
    else st

/-- The copy loop `for (unsigned int i = 0; i < (index - 2); i++)`: the
assignments it makes. The bound is computed in `unsigned int`. -/
def copyOut (w : IntWidth) (index : Nat) (data_received : Nat → Nat) : List (Nat × Nat) :=
  (List.range (wrapUInt w ((index : Int) - 2))).map (fun i => (i, data_received (i + 2)))

/-- The echo test `lowByte(reg) == data_received[0] && highByte(reg) == data_received[1]`. -/
def echoMatches (reg : Int) (data_received : Nat → Nat) : Bool :=
  decide (lowByte reg = data_received 0) && decide (highByte reg = data_received 1)

/-- The calls made by `int packetSize = CAN.parsePacket();` and by the test
`packetSize || CAN.packetId() != -1`, whose right operand is evaluated only
when `packetSize` is zero. -/
def pollEvents (p : Poll) : List Event :=
  if p.packetSize ≠ 0 then [Event.parsePacket p.packetSize]
  else [Event.parsePacket p.packetSize, Event.packetId p.packetId]

/-- The echo test with its two branches, followed by `if (blnDataValid) retVal = 1;`. -/
def validate (w : IntWidth) (reg : Int) (st : LoopState) : LoopState :=
  let st4 : LoopState :=
    if echoMatches reg st.data_received then
      { st with stores := st.stores ++ copyOut w st.index st.data_received }
    else { st with blnDataValid := false }
  if st4.blnDataValid then { st4 with retVal := 1 } else st4

/-- Body of the poll loop, for the `k`-th call of `CAN.parsePacket()`. -/
def loopBody (w : IntWidth) (env : Env) (reg : Int) (k : Nat) (st : LoopState) : LoopState :=
  let p := env.bus k
  let st2 : LoopState := { st with log := st.log ++ pollEvents p }
  if p.arrived then validate w reg (drain p.avail st2) else st2

/-- Outcome of `_getRegisterValue`: `ret` is the returned `int`, or `none` when
the loop is still running after the given number of iterations. -/
structure Result where
  ret : Option Int
  final : LoopState

/-- The poll loop `while (((micros() - startTime) < CAN_TIMEOUT) && blnDataValid)`.
The `k`-th evaluation of the condition reads `clock (k + 1)`. -/
def pollLoop (w : IntWidth) (env : Env) (reg : Int) (startTime : Nat) :
    Nat → Nat → LoopState → Result
  | 0, _, st => { ret := none, final := st }
  | fuel + 1, k, st =>
    let now := env.clock (k + 1) % 2 ^ 32
    let st1 : LoopState := { st with log := st.log ++ [Event.micros now] }
    if decide (elapsed now startTime < CAN_TIMEOUT) && st.blnDataValid then
      pollLoop w env reg startTime fuel (k + 1) (loopBody w env reg k st1)
    else { ret := some st1.retVal, final := st1 }

/-- The request frame of a register read. -/
def requestLog (self : BIC2200) (reg : Int) : List Event :=
  [Event.beginExtendedPacket (toLong self._CAN_ID_SEND),
   Event.write (lowByte reg), Event.write (highByte reg), Event.endPacket]

/-- State of `_getRegisterValue` when the poll loop is entered. -/
def entryState (self : BIC2200) (env : Env) (reg : Int) : LoopState :=
  { index := 0
    retVal := 0
    blnDataValid := true
    data_received := fun j => env.stack j % 256
    stores := []
    log := requestLog self reg ++ [Event.micros (env.clock 0 % 2 ^ 32)] }

/-- Member function `BIC2200::_getRegisterValue`, run for at most `fuel` evaluations of the
loop condition. -/
def _getRegisterValue (self : BIC2200) (w : IntWidth) (env : Env) (reg : Int) (fuel : Nat) :
    Result :=
  pollLoop w env reg (env.clock 0 % 2 ^ 32) fuel 0 (entryState self env reg)

/-- Memory of the caller's array after the assignments `stores`, starting from
the content `init` it had when the call was made. -/
def dataAfter (init : Nat → Nat) (stores : List (Nat × Nat)) : Nat → Nat :=
  stores.foldl (fun m s => setByte m s.1 s.2) (fun j => init j % 256)

/-- Common body of the integer getters over a two-byte register:
`byte data[2]; int v = -1; if (_getRegisterValue(reg, data)) v = ((data[1] << 8) + data[0]); return v;`
The arithmetic is done in `int`. -/
def getInt16 (self : BIC2200) (w : IntWidth) (env : Env) (reg : Int) (fuel : Nat) :
    Option Int :=
  let r := self._getRegisterValue w env reg fuel
  let data := dataAfter env.caller r.final.stores
  r.ret.map (fun (ok : Int) =>
    if ok ≠ 0 then wrapInt w (wrapInt w ((data 1 <<< 8 : Nat) : Int) + ((data 0 : Nat) : Int))
    else (-1 : Int))

/-- Member function `BIC2200::getSystemConfig`. -/
def getSystemConfig (self : BIC2200) (w : IntWidth) (env : Env) (fuel : Nat) : Option Int :=
  self.getInt16 w env CMD_SYSTEM_CONFIG fuel

/-- Member function `BIC2200::getBidirecitonalConfig`. -/
def getBidirecitonalConfig (self : BIC2200) (w : IntWidth) (env : Env) (fuel : Nat) :
    Option Int :=
  self.getInt16 w env CMD_BIDIRECTIONAL_CONFIG fuel

/-- Member function `BIC2200::getOutputVoltage`. -/
def getOutputVoltage (self : BIC2200) (w : IntWidth) (env : Env) (fuel : Nat) : Option Int :=
  self.getInt16 w env CMD_VOUT_SET fuel

/-- Member function `BIC2200::getOutputCurrent`. -/
def getOutputCurrent (self : BIC2200) (w : IntWidth) (env : Env) (fuel : Nat) : Option Int :=
  self.getInt16 w env CMD_IOUT_SET fuel

/-- Member function `BIC2200::getReverseOutputVoltage`. -/
def getReverseOutputVoltage (self : BIC2200) (w : IntWidth) (env : Env) (fuel : Nat) :
    Option Int :=
  self.getInt16 w env CMD_REVERSE_VOUT_SET fuel

/-- Member function `BIC2200::getReverseOutputCurrent`. -/
def getReverseOutputCurrent (self : BIC2200) (w : IntWidth) (env : Env) (fuel : Nat) :
    Option Int :=
  self.getInt16 w env CMD_REVERSE_IOUT_SET fuel

/-- Member function `BIC2200::getSystemStatus`. -/
def getSystemStatus (self : BIC2200) (w : IntWidth) (env : Env) (fuel : Nat) : Option Int :=
  self.getInt16 w env CMD_SYSTEM_STATUS fuel

/-- Member function `BIC2200::getScalingFactors`. -/
def getScalingFactors (self : BIC2200) (w : IntWidth) (env : Env) (fuel : Nat) : Option Int :=
  self.getInt16 w env CMD_SCALING_FACTOR fuel

/-- The eight integer getters over a two-byte register, each with the register
it reads. -/
def intGetters :
    List ((BIC2200 → IntWidth → Env → Nat → Option Int) × Int) :=
  [(getOutputVoltage, CMD_VOUT_SET), (getOutputCurrent, CMD_IOUT_SET),
   (getReverseOutputVoltage, CMD_REVERSE_VOUT_SET),
   (getReverseOutputCurrent, CMD_REVERSE_IOUT_SET),
   (getSystemConfig, CMD_SYSTEM_CONFIG), (getBidirecitonalConfig, CMD_BIDIRECTIONAL_CONFIG),
   (getSystemStatus, CMD_SYSTEM_STATUS), (getScalingFactors, CMD_SCALING_FACTOR)]

/-! ## Reading the log -/

/-- The events of `m` consecutive loop iterations, from the `k`-th on, in which
the loop condition holds and the controller reports no frame. -/
def idleLog (env : Env) (k : Nat) : Nat → List Event
  | 0 => []
  | m + 1 =>
    Event.micros (env.clock (k + 1) % 2 ^ 32) :: pollEvents (env.bus k) ++ idleLog env (k + 1) m

/-- Number of calls of `CAN.parsePacket()` in a log. -/
def pollCount (log : List Event) : Nat :=
  log.countP (fun e => match e with
    | .parsePacket _ => true
    | _ => false)

/-- Number of calls of `CAN.read()` in a log. -/
def readCount (log : List Event) : Nat :=
  log.countP (fun e => match e with
    | .read _ => true
    | _ => false)

/-- Number of calls of `CAN.write()` in a log: the bytes handed to the
controller. -/
def writeCount (log : List Event) : Nat :=
  log.countP (fun e => match e with
    | .write _ => true
    | _ => false)

/-- The frames a log hands to the controller: for each `endPacket`, the
identifier of the `beginExtendedPacket` before it and the bytes written in
between. The second argument is the frame under construction. -/
def framesOf : List Event → Option (Int × List Nat) → List (Int × List Nat)
  | [], _ => []
  | Event.beginExtendedPacket id :: es, _ => framesOf es (some (id, []))
  | Event.write b :: es, some (id, body) => framesOf es (some (id, body ++ [b]))
  | Event.write _ :: es, none => framesOf es none
  | Event.endPacket :: es, some f => f :: framesOf es none
  | Event.endPacket :: es, none => framesOf es none
  | Event.setPins _ :: es, cur => framesOf es cur
  | Event.setClockFrequency _ :: es, cur => framesOf es cur
  | Event.canBegin _ :: es, cur => framesOf es cur
  | Event.micros _ :: es, cur => framesOf es cur
  | Event.parsePacket _ :: es, cur => framesOf es cur
  | Event.packetId _ :: es, cur => framesOf es cur
  | Event.read _ :: es, cur => framesOf es cur

/-- The caller's array holding the bytes `p`. -/
def arrayOf (p : List Nat) : Nat → Nat :=
  fun i => p.getD i 0

/-! ## Sample runs -/

/-- A device object as `begin` leaves it for CAN address 3. -/
def sampleDevice : BIC2200 := (begin { _CS := 0, _CAN_ID_RECEIVE := 0, _CAN_ID_SEND := 0 } 10 3 1).self

/-- A clock that advances by 100 between two readings and a controller that
delivers the frame `body` to the poll number `slot` and nothing else. -/
def sampleEnv (slot : Nat) (body : List Nat) : Env :=
  { clock := fun k => 100 * k
    bus := fun k => if k = slot then Poll.frame 0x000C0203 body else Poll.idle
    stack := fun _ => 0xAA
    caller := fun _ => 0x55 }

/-- The same clock with a controller that never reports a frame. -/
def silentEnv : Env :=
  { clock := fun k => 100 * k
    bus := fun _ => Poll.idle
    stack := fun _ => 0xAA
    caller := fun _ => 0x55 }

/-- The same clock with a controller that holds two frames, handed out by the
first and the second poll. -/
def twoFrameEnv (first second : List Nat) : Env :=
  { clock := fun k => 100 * k
    bus := fun k =>
      if k = 0 then Poll.frame 0x000C0203 first
      else if k = 1 then Poll.frame 0x000C0204 second
      else Poll.idle
    stack := fun _ => 0xAA
    caller := fun _ => 0x55 }

/-- The same clock with a frame `body` at the first poll, the memory of
`data_received` holding zeros when the function is entered. -/
def zeroStackEnv (body : List Nat) : Env :=
  { clock := fun k => 100 * k
    bus := fun k => if k = 0 then Poll.frame 0x000C0203 body else Poll.idle
    stack := fun _ => 0
    caller := fun _ => 0x55 }

/-! ## Setters -/

/-- Common body of the setters of a two-byte register:
`byte data[2]; data[0] = lowByte(v); data[1] = highByte(v); _setRegisterValue(reg, data, 2);`
The parameter has type `int`: the value handed in is converted to `int`. -/
def setInt16 (self : BIC2200) (w : IntWidth) (reg : Int) (value : Int) : List Event :=
  let v : Int := wrapInt w value
  self._setRegisterValue reg (arrayOf [lowByte v, highByte v]) 2

/-- Member function `BIC2200::setSystemConfig`. -/
def setSystemConfig (self : BIC2200) (w : IntWidth) (config : Int) : List Event :=
  self.setInt16 w CMD_SYSTEM_CONFIG config

/-- Member function `BIC2200::setBidirecitonalConfig`. -/
def setBidirecitonalConfig (self : BIC2200) (w : IntWidth) (config : Int) : List Event :=
  self.setInt16 w CMD_BIDIRECTIONAL_CONFIG config

/-- Member function `BIC2200::setOutputVoltage`. -/
def setOutputVoltage (self : BIC2200) (w : IntWidth) (voltage : Int) : List Event :=
  self.setInt16 w CMD_VOUT_SET voltage

/-- Member function `BIC2200::setOutputCurrent`. -/
def setOutputCurrent (self : BIC2200) (w : IntWidth) (current : Int) : List Event :=
  self.setInt16 w CMD_IOUT_SET current

/-- Member function `BIC2200::setReverseOutputVoltage`. -/
def setReverseOutputVoltage (self : BIC2200) (w : IntWidth) (voltage : Int) : List Event :=
  self.setInt16 w CMD_REVERSE_VOUT_SET voltage

/-- Member function `BIC2200::setReverseOutputCurrent`. -/
def setReverseOutputCurrent (self : BIC2200) (w : IntWidth) (current : Int) : List Event :=
  self.setInt16 w CMD_REVERSE_IOUT_SET current

/-- The six pairs of a setter and a getter over the same two-byte register,
each with that register. -/
def setGetPairs :
    List ((BIC2200 → IntWidth → Int → List Event)
      × (BIC2200 → IntWidth → Env → Nat → Option Int) × Int) :=
  [(setOutputVoltage, getOutputVoltage, CMD_VOUT_SET),
   (setOutputCurrent, getOutputCurrent, CMD_IOUT_SET),
   (setReverseOutputVoltage, getReverseOutputVoltage, CMD_REVERSE_VOUT_SET),
   (setReverseOutputCurrent, getReverseOutputCurrent, CMD_REVERSE_IOUT_SET),
   (setSystemConfig, getSystemConfig, CMD_SYSTEM_CONFIG),
   (setBidirecitonalConfig, getBidirecitonalConfig, CMD_BIDIRECTIONAL_CONFIG)]

/-- A microsecond counter that starts 100 ticks before it wraps past `2 ^ 32`
and advances by 300 ticks between two readings, with a silent controller. -/
def wrapEnv : Env :=
  { clock := fun k => 2 ^ 32 - 100 + 300 * k
    bus := fun _ => Poll.idle
    stack := fun _ => 0xAA
    caller := fun _ => 0x55 }

end BIC2200

/-! ## Auxiliary facts -/

namespace BIC2200

theorem elapsed_mod_left (a b : Nat) : elapsed (a % 2 ^ 32) b = elapsed a b := by
  simp [elapsed]

theorem elapsed_mod_right (a b : Nat) : elapsed a (b % 2 ^ 32) = elapsed a b := by
  simp [elapsed]

theorem wrapUInt_sub_two (w : IntWidth) (n : Nat) (h2 : 2 ≤ n) (h8 : n ≤ 8) :
    wrapUInt w ((n : Int) - 2) = n - 2 := by
  cases w <;> simp only [wrapUInt, IntWidth.bits] <;> omega

theorem drain_stores (l : List Nat) (st : LoopState) : (drain l st).stores = st.stores := by
  induction l generalizing st with
  | nil => rfl
  | cons b rest ih =>
    simp only [drain]
    split
    · rw [ih]
    · rfl

theorem drain_retVal (l : List Nat) (st : LoopState) : (drain l st).retVal = st.retVal := by
  induction l generalizing st with
  | nil => rfl
  | cons b rest ih =>
    simp only [drain]
    split
    · rw [ih]
    · rfl

theorem drain_blnDataValid (l : List Nat) (st : LoopState) :
    (drain l st).blnDataValid = st.blnDataValid := by
  induction l generalizing st with
  | nil => rfl
  | cons b rest ih =>
    simp only [drain]
    split
    · rw [ih]
    · rfl

theorem drain_index (l : List Nat) (st : LoopState) (h : st.index + l.length ≤ 8) :
    (drain l st).index = st.index + l.length := by
  induction l generalizing st with
  | nil => rfl
  | cons b rest ih =>
    simp only [List.length_cons] at h
    have h8 : st.index < 8 := by omega
    simp only [drain, h8, if_true]
    rw [ih]
    · simp only [List.length_cons]; omega
    · simp only; omega

theorem drain_below (l : List Nat) (st : LoopState) (i : Nat) (hi : i < st.index) :
    (drain l st).data_received i = st.data_received i := by
  induction l generalizing st with
  | nil => rfl
  | cons b rest ih =>
    simp only [drain]
    split
    · rw [ih]
      · have : i ≠ st.index := by omega
        simp [setByte, this]
      · simp only; omega
    · rfl

theorem drain_cell (l : List Nat) (st : LoopState) (h : st.index + l.length ≤ 8) (i : Nat)
    (hi : i < l.length) :
    (drain l st).data_received (st.index + i) = l.getD i 0 % 256 := by
  induction l generalizing st i with
  | nil => simp at hi
  | cons b rest ih =>
    simp only [List.length_cons] at h hi
    have h8 : st.index < 8 := by omega
    simp only [drain, h8, if_true]
    cases i with
    | zero =>
      rw [drain_below]
      · simp [setByte]
      · simp
    | succ i =>
      have := ih { st with
          data_received := setByte st.data_received st.index b
          index := st.index + 1
          log := st.log ++ [Event.read b] } (by simp only; omega) i (by omega)
      simp only at this
      rw [show st.index + (i + 1) = st.index + 1 + i by omega, this]
      simp

theorem pollLoop_timeout (w : IntWidth) (env : Env) (reg : Int) (s fuel k : Nat)
    (st : LoopState) (h : CAN_TIMEOUT ≤ elapsed (env.clock (k + 1)) s) :
    pollLoop w env reg s (fuel + 1) k st =
      { ret := some st.retVal
        final := { st with log := st.log ++ [Event.micros (env.clock (k + 1) % 2 ^ 32)] } } := by
  have h1 : ¬ elapsed (env.clock (k + 1)) s < CAN_TIMEOUT := by omega
  simp only [pollLoop, elapsed_mod_left, h1, decide_False, Bool.false_and]
  rfl

theorem pollLoop_invalid (w : IntWidth) (env : Env) (reg : Int) (s fuel k : Nat)
    (st : LoopState) (h : st.blnDataValid = false) :
    pollLoop w env reg s (fuel + 1) k st =
      { ret := some st.retVal
        final := { st with log := st.log ++ [Event.micros (env.clock (k + 1) % 2 ^ 32)] } } := by
  simp [pollLoop, h]

theorem pollLoop_step (w : IntWidth) (env : Env) (reg : Int) (s fuel k : Nat)
    (st : LoopState) (h : elapsed (env.clock (k + 1)) s < CAN_TIMEOUT)
    (hv : st.blnDataValid = true) :
    pollLoop w env reg s (fuel + 1) k st =
      pollLoop w env reg s fuel (k + 1)
        (loopBody w env reg k
          { st with log := st.log ++ [Event.micros (env.clock (k + 1) % 2 ^ 32)] }) := by
  simp only [pollLoop, elapsed_mod_left, h, hv, decide_True, Bool.and_self, if_true]

theorem loopBody_idle (w : IntWidth) (env : Env) (reg : Int) (k : Nat) (st : LoopState)
    (h : (env.bus k).arrived = false) :
    loopBody w env reg k st =
      { st with log := st.log ++ pollEvents (env.bus k) } := by
  simp [loopBody, h]

theorem pollLoop_idle (w : IntWidth) (env : Env) (reg : Int) (s : Nat) (m : Nat) :
    ∀ (fuel k : Nat) (st : LoopState), st.blnDataValid = true →
      (∀ i, i < m → elapsed (env.clock (k + i + 1)) s < CAN_TIMEOUT) →
      (∀ i, i < m → (env.bus (k + i)).arrived = false) →
      pollLoop w env reg s (m + fuel) k st =
        pollLoop w env reg s fuel (k + m) { st with log := st.log ++ idleLog env k m } := by
  induction m with
  | zero =>
    intro fuel k st _ _ _
    simp [idleLog]
  | succ m ih =>
    intro fuel k st hv hclk hbus
    rw [show m + 1 + fuel = (m + fuel) + 1 by omega]
    rw [pollLoop_step w env reg s (m + fuel) k st (by simpa using hclk 0 (by omega)) hv]
    rw [loopBody_idle w env reg k _ (by simpa using hbus 0 (by omega))]
    dsimp only
    refine Eq.trans (ih fuel (k + 1) _ ?_ ?_ ?_) ?_
    · exact hv
    · intro i hi
      have := hclk (i + 1) (by omega)
      rwa [show k + (i + 1) + 1 = k + 1 + i + 1 by omega] at this
    · intro i hi
      have := hbus (i + 1) (by omega)
      rwa [show k + (i + 1) = k + 1 + i by omega] at this
    · simp [idleLog, show k + 1 + m = k + (m + 1) by omega]

theorem pollLoop_idle_timeout (w : IntWidth) (env : Env) (reg : Int) (s m fuel k : Nat)
    (st : LoopState) (hv : st.blnDataValid = true)
    (hclk : ∀ i, i < m → elapsed (env.clock (k + i + 1)) s < CAN_TIMEOUT)
    (hbus : ∀ i, i < m → (env.bus (k + i)).arrived = false)
    (hend : CAN_TIMEOUT ≤ elapsed (env.clock (k + m + 1)) s) :
    pollLoop w env reg s (m + (fuel + 1)) k st =
      { ret := some st.retVal
        final := { st with log := st.log ++ idleLog env k m
                              ++ [Event.micros (env.clock (k + m + 1) % 2 ^ 32)] } } := by
  rw [pollLoop_idle w env reg s m (fuel + 1) k st hv hclk hbus]
  rw [pollLoop_timeout w env reg s fuel (k + m) _ hend]

theorem lowByte_lt (r : Int) : lowByte r < 256 := by
  unfold lowByte
  omega

theorem highByte_lt (r : Int) : highByte r < 256 := by
  unfold highByte
  omega

theorem drain_cell_zero (l : List Nat) (st : LoopState) (h0 : st.index = 0)
    (h : l.length ≤ 8) (i : Nat) (hi : i < l.length) :
    (drain l st).data_received i = l.getD i 0 % 256 := by
  have := drain_cell l st (by omega) i hi
  rwa [h0, Nat.zero_add] at this

theorem range_map_eq_zip (n : Nat) (f : Nat → Nat) (p : List Nat) (hn : p.length = n)
    (hf : ∀ i, i < n → f i = p.getD i 0) :
    (List.range n).map (fun i => (i, f i)) = List.zip (List.range n) p := by
  apply List.ext_getElem
  · simp [hn]
  · intro i h1 h2
    simp only [List.length_map, List.length_range] at h1
    have hp : i < p.length := by omega
    simp [hf i h1, List.getElem?_eq_getElem hp]

theorem validate_match (w : IntWidth) (reg : Int) (st : LoopState)
    (hv : st.blnDataValid = true) (he : echoMatches reg st.data_received = true) :
    validate w reg st =
      { st with stores := st.stores ++ copyOut w st.index st.data_received, retVal := 1 } := by
  simp [validate, he, hv]

theorem validate_mismatch (w : IntWidth) (reg : Int) (st : LoopState)
    (he : echoMatches reg st.data_received = false) :
    validate w reg st = { st with blnDataValid := false } := by
  simp [validate, he]

theorem drain_log (l : List Nat) (st : LoopState) (h : st.index + l.length ≤ 8) :
    (drain l st).log = st.log ++ l.map Event.read := by
  induction l generalizing st with
  | nil => simp [drain]
  | cons b rest ih =>
    simp only [List.length_cons] at h
    have h8 : st.index < 8 := by omega
    simp only [drain, h8, if_true]
    rw [ih]
    · simp
    · simp only; omega

theorem loopBody_reply (w : IntWidth) (env : Env) (reg : Int) (k : Nat) (st : LoopState)
    (p : List Nat) (h0 : st.index = 0) (hv : st.blnDataValid = true)
    (harr : (env.bus k).arrived = true)
    (hav : (env.bus k).avail = lowByte reg :: highByte reg :: p)
    (hp : p.length ≤ 6) (hb : ∀ b ∈ p, b < 256) :
    (loopBody w env reg k st).retVal = 1 ∧ (loopBody w env reg k st).blnDataValid = true ∧
    (loopBody w env reg k st).index = p.length + 2 ∧
    (loopBody w env reg k st).stores = st.stores ++ List.zip (List.range p.length) p ∧
    (loopBody w env reg k st).log =
      st.log ++ pollEvents (env.bus k) ++ (lowByte reg :: highByte reg :: p).map Event.read := by
  have hlen : (lowByte reg :: highByte reg :: p).length ≤ 8 := by
    simp only [List.length_cons]; omega
  let st2 : LoopState := { st with log := st.log ++ pollEvents (env.bus k) }
  have hi2 : st2.index = 0 := h0
  have hcell := drain_cell_zero (lowByte reg :: highByte reg :: p) st2 hi2 hlen
  have hidx : (drain (lowByte reg :: highByte reg :: p) st2).index = p.length + 2 := by
    rw [drain_index _ _ (by rw [hi2]; omega), hi2]
    simp
  have he : echoMatches reg (drain (lowByte reg :: highByte reg :: p) st2).data_received
      = true := by
    have c0 := hcell 0 (by simp)
    have c1 := hcell 1 (by simp)
    simp only [List.getD_cons_zero, List.getD_cons_succ] at c0 c1
    rw [Nat.mod_eq_of_lt (lowByte_lt reg)] at c0
    rw [Nat.mod_eq_of_lt (highByte_lt reg)] at c1
    simp [echoMatches, c0, c1]
  have hvd : (drain (lowByte reg :: highByte reg :: p) st2).blnDataValid = true := by
    rw [drain_blnDataValid]; exact hv
  have hbody : loopBody w env reg k st
      = validate w reg (drain (lowByte reg :: highByte reg :: p) st2) := by
    simp only [loopBody, harr, hav, if_true]
  rw [hbody, validate_match w reg _ hvd he]
  refine ⟨rfl, hvd, hidx, ?_, ?_⟩
  · simp only [drain_stores, hidx, copyOut]
    rw [wrapUInt_sub_two w (p.length + 2) (by omega) (by omega)]
    simp only [Nat.add_sub_cancel]
    congr 1
    apply range_map_eq_zip _ (fun i =>
      (drain (lowByte reg :: highByte reg :: p) st2).data_received (i + 2)) p rfl
    intro i hi
    have c := hcell (i + 2) (by simp only [List.length_cons]; omega)
    simp only [List.getD_cons_succ] at c
    have hb2 : p.getD i 0 < 256 := by
      rw [List.getD_eq_getElem _ 0 hi]
      exact hb _ (List.getElem_mem _)
    simp only [c, Nat.mod_eq_of_lt hb2]
  · simp only
    rw [drain_log _ _ (by rw [hi2]; omega)]

/-- C1. Reading a register succeeds on a correct reply: when the loop condition
holds for the first `n` evaluations and fails at the next one, exactly one
frame arrives in those `n` polls (at poll `j`), and its body is
`[lowByte reg, highByte reg] ++ p` with `p` of at most 6 bytes, then
`_getRegisterValue` returns 1, the assignments to the caller's array are
exactly `data[i] = p[i]` for `i < p.length`, in order, and the received count
is `p.length + 2`. -/
theorem C1_read_reply_success (self : BIC2200) (w : IntWidth) (env : Env) (reg : Int)
    (p : List Nat) (j n : Nat) (hp : p.length ≤ 6) (hb : ∀ b ∈ p, b < 256) (hj : j < n)
    (hclk : ∀ i, i < n → elapsed (env.clock (i + 1)) (env.clock 0) < CAN_TIMEOUT)
    (hend : CAN_TIMEOUT ≤ elapsed (env.clock (n + 1)) (env.clock 0))
    (harr : (env.bus j).arrived = true)
    (hav : (env.bus j).avail = lowByte reg :: highByte reg :: p)
    (hidle : ∀ i, i < n → i ≠ j → (env.bus i).arrived = false)
    (fuel : Nat) (hfuel : n < fuel) :
    (self._getRegisterValue w env reg fuel).ret = some 1 ∧
    (self._getRegisterValue w env reg fuel).final.stores = List.zip (List.range p.length) p ∧
    (self._getRegisterValue w env reg fuel).final.stores.length
      = (self._getRegisterValue w env reg fuel).final.index - 2 ∧
    (self._getRegisterValue w env reg fuel).final.index = p.length + 2 := by
  obtain ⟨f, rfl⟩ : ∃ f, fuel = j + ((n - j - 1) + (f + 1) + 1) := ⟨fuel - n - 1, by omega⟩
  have hclk2 : ∀ i, i < n → elapsed (env.clock (i + 1)) (env.clock 0 % 2 ^ 32) < CAN_TIMEOUT := by
    intro i hi
    rw [elapsed_mod_right]
    exact hclk i hi
  have hend2 : CAN_TIMEOUT ≤ elapsed (env.clock (n + 1)) (env.clock 0 % 2 ^ 32) := by
    rw [elapsed_mod_right]
    exact hend
  unfold _getRegisterValue
  rw [pollLoop_idle w env reg _ j _ 0 (entryState self env reg) rfl
    (fun i hi => by simpa using hclk2 i (by omega))
    (fun i hi => by simpa using hidle i (by omega) (by omega))]
  rw [pollLoop_step w env reg _ _ (0 + j) _ (by simpa using hclk2 j hj) rfl]
  obtain ⟨h1, h2, h3, h4, _⟩ := loopBody_reply w env reg (0 + j)
    { entryState self env reg with
      log := ((entryState self env reg).log ++ idleLog env 0 j)
        ++ [Event.micros (env.clock (0 + j + 1) % 2 ^ 32)] } p rfl rfl
    (by simpa using harr) (by simpa using hav) hp hb
  rw [pollLoop_idle_timeout w env reg _ (n - j - 1) f (0 + j + 1) _ h2
    (fun i hi => by
      have := hclk2 (j + 1 + i) (by omega)
      rwa [show 0 + j + 1 + i + 1 = j + 1 + i + 1 by omega])
    (fun i hi => by
      have := hidle (j + 1 + i) (by omega) (by omega)
      rwa [show 0 + j + 1 + i = j + 1 + i by omega])
    (by rwa [show 0 + j + 1 + (n - j - 1) + 1 = n + 1 by omega])]
  simp only [h1, h3, h4]
  simp [entryState]

/-- Witness of C1: register 0x0062, reply `[0x62, 0x00, 0xD2, 0x00]` at the
second poll, timeout at the sixth clock reading: the call returns 1 and copies
out `[0xD2, 0x00]`. -/
theorem C1_read_reply_success_witness :
    (sampleDevice._getRegisterValue IntWidth.w16 (sampleEnv 1 [0x62, 0x00, 0xD2, 0x00])
        0x0062 5).ret = some 1 ∧
    (sampleDevice._getRegisterValue IntWidth.w16 (sampleEnv 1 [0x62, 0x00, 0xD2, 0x00])
        0x0062 5).final.stores = [(0, 0xD2), (1, 0x00)] := by
  have h := C1_read_reply_success sampleDevice IntWidth.w16
    (sampleEnv 1 [0x62, 0x00, 0xD2, 0x00]) 0x0062 [0xD2, 0x00] 1 4
    (by decide) (by decide) (by decide) (by decide) (by decide) (by decide) (by decide)
    (by decide) 5 (by decide)
  exact ⟨h.1, h.2.1⟩

theorem drain_log_take (l : List Nat) (st : LoopState) :
    (drain l st).log = st.log ++ (l.take (8 - st.index)).map Event.read := by
  induction l generalizing st with
  | nil => simp [drain]
  | cons b rest ih =>
    simp only [drain]
    split
    · rename_i h8
      rw [ih]
      simp only [List.append_assoc, List.singleton_append]
      rw [show 8 - st.index = (8 - (st.index + 1)) + 1 by omega]
      simp
    · rename_i h8
      rw [show 8 - st.index = 0 by omega]
      simp

theorem drain_two (a b : Nat) (rest : List Nat) (st : LoopState) (h0 : st.index = 0) :
    (drain (a :: b :: rest) st).data_received 0 = a % 256 ∧
    (drain (a :: b :: rest) st).data_received 1 = b % 256 := by
  simp only [drain, h0, Nat.zero_lt_succ, if_true, Nat.zero_add, Nat.one_lt_ofNat]
  constructor
  · rw [drain_below _ _ 0 (by simp)]
    simp [setByte]
  · rw [drain_below _ _ 1 (by simp)]
    simp [setByte]

theorem pollCount_append (l1 l2 : List Event) :
    pollCount (l1 ++ l2) = pollCount l1 + pollCount l2 := by
  simp [pollCount, List.countP_append]

theorem pollCount_pollEvents (p : Poll) : pollCount (pollEvents p) = 1 := by
  unfold pollEvents
  split <;> simp [pollCount, List.countP_cons]

theorem pollCount_reads (l : List Nat) : pollCount (l.map Event.read) = 0 := by
  induction l with
  | nil => rfl
  | cons b rest ih =>
    simp only [pollCount, List.map_cons, List.countP_cons] at ih ⊢
    simp [ih]

theorem pollCount_idleLog (env : Env) (m : Nat) : ∀ k, pollCount (idleLog env k m) = m := by
  induction m with
  | zero => intro k; rfl
  | succ m ih =>
    intro k
    simp only [idleLog]
    rw [show Event.micros (env.clock (k + 1) % 2 ^ 32) :: pollEvents (env.bus k)
          ++ idleLog env (k + 1) m
        = [Event.micros (env.clock (k + 1) % 2 ^ 32)] ++ (pollEvents (env.bus k)
          ++ idleLog env (k + 1) m) by rfl]
    rw [pollCount_append, pollCount_append, pollCount_pollEvents, ih]
    simp [pollCount, List.countP_cons]
    omega

theorem pollCount_requestLog (self : BIC2200) (reg : Int) :
    pollCount (requestLog self reg) = 0 := by
  simp [pollCount, requestLog, List.countP_cons]

theorem loopBody_mismatch (w : IntWidth) (env : Env) (reg : Int) (k : Nat) (st : LoopState)
    (a b : Nat) (rest : List Nat) (h0 : st.index = 0)
    (harr : (env.bus k).arrived = true) (hav : (env.bus k).avail = a :: b :: rest)
    (hne : ¬ (a % 256 = lowByte reg ∧ b % 256 = highByte reg)) :
    (loopBody w env reg k st).retVal = st.retVal ∧
    (loopBody w env reg k st).blnDataValid = false ∧
    (loopBody w env reg k st).stores = st.stores ∧
    (loopBody w env reg k st).log =
      st.log ++ pollEvents (env.bus k) ++ ((a :: b :: rest).take 8).map Event.read := by
  let st2 : LoopState := { st with log := st.log ++ pollEvents (env.bus k) }
  have hi2 : st2.index = 0 := h0
  obtain ⟨c0, c1⟩ := drain_two a b rest st2 hi2
  have he : echoMatches reg (drain (a :: b :: rest) st2).data_received = false := by
    simp only [echoMatches, c0, c1]
    by_cases ha : a % 256 = lowByte reg
    · have hb : ¬ b % 256 = highByte reg := fun hb => hne ⟨ha, hb⟩
      have hb2 : ¬ highByte reg = b % 256 := fun e => hb e.symm
      simp [hb2]
    · have ha2 : ¬ lowByte reg = a % 256 := fun e => ha e.symm
      simp [ha2]
  have hbody : loopBody w env reg k st = validate w reg (drain (a :: b :: rest) st2) := by
    simp only [loopBody, harr, hav, if_true]
  rw [hbody, validate_mismatch w reg _ he]
  refine ⟨?_, rfl, ?_, ?_⟩
  · simp only [drain_retVal]
  · simp only [drain_stores]
  · simp only
    rw [drain_log_take, hi2]

/-- C2. Abort on echo mismatch: when the first frame that arrives (at poll `j`,
while the loop condition still holds) has at least two bytes `a, b, ...` and
`(a, b)` is not `(lowByte reg, highByte reg)`, then `_getRegisterValue` returns
0, assigns nothing to the caller's array, and the log ends with the bytes
read from that frame followed by a single clock reading: `CAN.parsePacket()`
has been called `j + 1` times and is not called again. -/
theorem C2_echo_mismatch_aborts (self : BIC2200) (w : IntWidth) (env : Env) (reg : Int)
    (a b : Nat) (rest : List Nat) (j : Nat)
    (hclk : ∀ i, i ≤ j → elapsed (env.clock (i + 1)) (env.clock 0) < CAN_TIMEOUT)
    (hidle : ∀ i, i < j → (env.bus i).arrived = false)
    (harr : (env.bus j).arrived = true) (hav : (env.bus j).avail = a :: b :: rest)
    (hne : ¬ (a % 256 = lowByte reg ∧ b % 256 = highByte reg))
    (fuel : Nat) (hfuel : j + 1 < fuel) :
    (self._getRegisterValue w env reg fuel).ret = some 0 ∧
    (self._getRegisterValue w env reg fuel).final.stores = [] ∧
    (self._getRegisterValue w env reg fuel).final.log =
      requestLog self reg ++ [Event.micros (env.clock 0 % 2 ^ 32)] ++ idleLog env 0 j
        ++ [Event.micros (env.clock (j + 1) % 2 ^ 32)] ++ pollEvents (env.bus j)
        ++ ((a :: b :: rest).take 8).map Event.read
        ++ [Event.micros (env.clock (j + 2) % 2 ^ 32)] ∧
    pollCount (self._getRegisterValue w env reg fuel).final.log = j + 1 := by
  obtain ⟨f, rfl⟩ : ∃ f, fuel = j + ((f + 1) + 1) := ⟨fuel - j - 2, by omega⟩
  have hclk2 : ∀ i, i ≤ j → elapsed (env.clock (i + 1)) (env.clock 0 % 2 ^ 32) < CAN_TIMEOUT := by
    intro i hi
    rw [elapsed_mod_right]
    exact hclk i hi
  unfold _getRegisterValue
  rw [pollLoop_idle w env reg _ j _ 0 (entryState self env reg) rfl
    (fun i hi => by simpa using hclk2 i (by omega))
    (fun i hi => by simpa using hidle i hi)]
  rw [pollLoop_step w env reg _ _ (0 + j) _ (by simpa using hclk2 j (Nat.le_refl j)) rfl]
  obtain ⟨h1, h2, h3, h4⟩ := loopBody_mismatch w env reg (0 + j)
    { entryState self env reg with
      log := ((entryState self env reg).log ++ idleLog env 0 j)
        ++ [Event.micros (env.clock (0 + j + 1) % 2 ^ 32)] } a b rest rfl
    (by simpa using harr) (by simpa using hav) hne
  rw [pollLoop_invalid w env reg _ f (0 + j + 1) _ h2]
  have hlog : ∀ x : List Event, x = requestLog self reg ++ [Event.micros (env.clock 0 % 2 ^ 32)]
      ++ idleLog env 0 j ++ [Event.micros (env.clock (j + 1) % 2 ^ 32)] ++ pollEvents (env.bus j)
      ++ ((a :: b :: rest).take 8).map Event.read
      ++ [Event.micros (env.clock (j + 2) % 2 ^ 32)] → pollCount x = j + 1 := by
    intro x hx
    rw [hx]
    simp only [pollCount_append, pollCount_requestLog, pollCount_idleLog, pollCount_pollEvents,
      pollCount_reads]
    simp [pollCount, List.countP_cons]
  have hfin : (loopBody w env reg (0 + j)
      { entryState self env reg with
        log := ((entryState self env reg).log ++ idleLog env 0 j)
          ++ [Event.micros (env.clock (0 + j + 1) % 2 ^ 32)] }).log
        ++ [Event.micros (env.clock (0 + j + 1 + 1) % 2 ^ 32)]
      = requestLog self reg ++ [Event.micros (env.clock 0 % 2 ^ 32)]
      ++ idleLog env 0 j ++ [Event.micros (env.clock (j + 1) % 2 ^ 32)] ++ pollEvents (env.bus j)
      ++ ((a :: b :: rest).take 8).map Event.read
      ++ [Event.micros (env.clock (j + 2) % 2 ^ 32)] := by
    rw [h4]
    simp only [Nat.zero_add, entryState]
  exact ⟨congrArg some h1, h3, hfin, hlog _ hfin⟩

/-- Witness of C2: a reply `[0x01, 0x00, 0xD2, 0x00]` to a request for register
0x0062 makes the call return 0 with nothing copied out. -/
theorem C2_echo_mismatch_aborts_witness :
    (sampleDevice._getRegisterValue IntWidth.w16 (sampleEnv 0 [0x01, 0x00, 0xD2, 0x00])
        0x0062 2).ret = some 0 ∧
    (sampleDevice._getRegisterValue IntWidth.w16 (sampleEnv 0 [0x01, 0x00, 0xD2, 0x00])
        0x0062 2).final.stores = [] ∧
    pollCount (sampleDevice._getRegisterValue IntWidth.w16
        (sampleEnv 0 [0x01, 0x00, 0xD2, 0x00]) 0x0062 2).final.log = 1 := by
  have h := C2_echo_mismatch_aborts sampleDevice IntWidth.w16
    (sampleEnv 0 [0x01, 0x00, 0xD2, 0x00]) 0x0062 0x01 0x00 [0xD2, 0x00] 0
    (by decide) (by decide) (by decide) (by decide) (by decide) 2 (by decide)
  exact ⟨h.1, h.2.1, h.2.2.2⟩

/-- C3. Timeout without a frame: when the controller never reports a frame and
some clock reading shows an elapsed time of at least `CAN_TIMEOUT`, there is a
first such reading, number `n + 1`; `_getRegisterValue` is still running after
`n` evaluations of the loop condition, and with the next one it returns 0,
having assigned nothing to the caller's array; the last thing it did was to
read that clock value. -/
theorem C3_timeout_without_frame (self : BIC2200) (w : IntWidth) (env : Env) (reg : Int)
    (hbus : ∀ k, (env.bus k).arrived = false)
    (hreach : ∃ m, CAN_TIMEOUT ≤ elapsed (env.clock (m + 1)) (env.clock 0)) :
    ∃ n, (∀ i, i < n → elapsed (env.clock (i + 1)) (env.clock 0) < CAN_TIMEOUT) ∧
      CAN_TIMEOUT ≤ elapsed (env.clock (n + 1)) (env.clock 0) ∧
      ∀ fuel,
        (fuel ≤ n → (self._getRegisterValue w env reg fuel).ret = none) ∧
        (n < fuel →
          (self._getRegisterValue w env reg fuel).ret = some 0 ∧
          (self._getRegisterValue w env reg fuel).final.stores = [] ∧
          (self._getRegisterValue w env reg fuel).final.log =
            requestLog self reg ++ [Event.micros (env.clock 0 % 2 ^ 32)] ++ idleLog env 0 n
              ++ [Event.micros (env.clock (n + 1) % 2 ^ 32)]) := by
  classical
  refine ⟨Nat.find hreach, fun i hi => ?_, Nat.find_spec hreach, fun fuel => ⟨fun hle => ?_, fun hlt => ?_⟩⟩
  · have := Nat.find_min hreach hi
    omega
  · have hclk : ∀ i, i < fuel →
        elapsed (env.clock (0 + i + 1)) (env.clock 0 % 2 ^ 32) < CAN_TIMEOUT := by
      intro i hi
      have := Nat.find_min hreach (show i < Nat.find hreach by omega)
      rw [elapsed_mod_right, Nat.zero_add]
      omega
    unfold _getRegisterValue
    have h := pollLoop_idle w env reg (env.clock 0 % 2 ^ 32) fuel 0 0 (entryState self env reg)
      rfl hclk (fun i _ => hbus (0 + i))
    rw [Nat.add_zero] at h
    rw [h]
    rfl
  · obtain ⟨f, hf⟩ : ∃ f, fuel = Nat.find hreach + (f + 1) :=
      ⟨fuel - Nat.find hreach - 1, by omega⟩
    have hclk : ∀ i, i < Nat.find hreach →
        elapsed (env.clock (0 + i + 1)) (env.clock 0 % 2 ^ 32) < CAN_TIMEOUT := by
      intro i hi
      have := Nat.find_min hreach hi
      rw [elapsed_mod_right, Nat.zero_add]
      omega
    have hend : CAN_TIMEOUT ≤
        elapsed (env.clock (0 + Nat.find hreach + 1)) (env.clock 0 % 2 ^ 32) := by
      rw [elapsed_mod_right, Nat.zero_add]
      exact Nat.find_spec hreach
    unfold _getRegisterValue
    rw [hf, pollLoop_idle_timeout w env reg _ (Nat.find hreach) f 0 (entryState self env reg)
      rfl hclk (fun i _ => hbus (0 + i)) hend]
    refine ⟨rfl, rfl, ?_⟩
    simp only [entryState, Nat.zero_add]

/-- Witness of C3: with a clock advancing by 100 per reading and a silent
controller the call returns 0 at the sixth reading and not before. -/
theorem C3_timeout_without_frame_witness :
    ∃ n, (∀ i, i < n → elapsed (silentEnv.clock (i + 1)) (silentEnv.clock 0) < CAN_TIMEOUT) ∧
      CAN_TIMEOUT ≤ elapsed (silentEnv.clock (n + 1)) (silentEnv.clock 0) ∧
      ∀ fuel,
        (fuel ≤ n → (sampleDevice._getRegisterValue IntWidth.w16 silentEnv 0x0062 fuel).ret
          = none) ∧
        (n < fuel →
          (sampleDevice._getRegisterValue IntWidth.w16 silentEnv 0x0062 fuel).ret = some 0 ∧
          (sampleDevice._getRegisterValue IntWidth.w16 silentEnv 0x0062 fuel).final.stores = [] ∧
          (sampleDevice._getRegisterValue IntWidth.w16 silentEnv 0x0062 fuel).final.log =
            requestLog sampleDevice 0x0062 ++ [Event.micros (silentEnv.clock 0 % 2 ^ 32)]
              ++ idleLog silentEnv 0 n ++ [Event.micros (silentEnv.clock (n + 1) % 2 ^ 32)]) :=
  C3_timeout_without_frame sampleDevice IntWidth.w16 silentEnv 0x0062 (fun _ => rfl)
    ⟨4, by decide⟩

theorem lowByte_address (addr : Nat) : lowByte (addr : Int) = addr % 256 := by
  unfold lowByte
  omega

theorem highByte_address (addr : Nat) (h : addr < 65536) :
    highByte (addr : Int) = addr / 256 := by
  unfold highByte
  omega

theorem framesOf_writes (l : List Nat) (rest : List Event) (id : Int) (body : List Nat) :
    framesOf (l.map Event.write ++ rest) (some (id, body))
      = framesOf rest (some (id, body ++ l)) := by
  induction l generalizing body with
  | nil => simp
  | cons b l ih =>
    simp only [List.map_cons, List.cons_append, framesOf, List.append_eq]
    rw [ih]
    simp

theorem framesOf_quiet (l : List Event) (hl : ∀ e ∈ l, e.isSend = false)
    (cur : Option (Int × List Nat)) : framesOf l cur = [] := by
  induction l generalizing cur with
  | nil => rfl
  | cons e l ih =>
    have he := hl e (List.mem_cons_self _ _)
    have hl2 : ∀ x ∈ l, x.isSend = false := fun x hx => hl x (List.mem_cons_of_mem _ hx)
    cases e <;> simp_all [framesOf, Event.isSend]

theorem writeCount_append (l1 l2 : List Event) :
    writeCount (l1 ++ l2) = writeCount l1 + writeCount l2 := by
  simp [writeCount, List.countP_append]

theorem writeCount_writes (l : List Nat) : writeCount (l.map Event.write) = l.length := by
  induction l with
  | nil => rfl
  | cons b rest ih =>
    simp only [writeCount, List.map_cons, List.countP_cons, List.length_cons] at ih ⊢
    simp [ih]

theorem range_map_arrayOf (p : List Nat) (hb : ∀ b ∈ p, b < 256) :
    (List.range p.length).map (fun i => arrayOf p i % 256) = p := by
  apply List.ext_getElem
  · simp
  · intro i h1 h2
    have hb2 : p[i] < 256 := hb _ (List.getElem_mem _)
    simp [arrayOf, List.getElem?_eq_getElem h2, Nat.mod_eq_of_lt hb2]

theorem setRegisterValue_log (self : BIC2200) (reg : Int) (data : Nat → Nat) (len : Int) :
    self._setRegisterValue reg data len =
      [Event.beginExtendedPacket (toLong self._CAN_ID_SEND)]
      ++ ((lowByte reg :: highByte reg ::
            (List.range len.toNat).map (fun i => data i % 256)).map Event.write
          ++ [Event.endPacket]) := by
  simp [_setRegisterValue, List.map_map, Function.comp_def]

/-- C4. Writing a register: for a 16-bit address `addr` and a payload `p` of at
most 6 bytes, `_setRegisterValue` makes exactly the calls
`beginExtendedPacket(_CAN_ID_SEND)`, `write` of `addr % 256`, of `addr / 256`
and of each payload byte in order, `endPacket`: one frame of at most 8 bytes
with body `[addr % 256, addr / 256] ++ p`, no other frame, no poll. -/
theorem C4_write_emits_one_frame (self : BIC2200) (addr : Nat) (p : List Nat)
    (haddr : addr < 65536) (hp : p.length ≤ 6) (hb : ∀ b ∈ p, b < 256) :
    self._setRegisterValue (addr : Int) (arrayOf p) (p.length : Int) =
      [Event.beginExtendedPacket (toLong self._CAN_ID_SEND)]
        ++ ((addr % 256 :: addr / 256 :: p).map Event.write ++ [Event.endPacket]) ∧
    framesOf (self._setRegisterValue (addr : Int) (arrayOf p) (p.length : Int)) none =
      [(toLong self._CAN_ID_SEND, addr % 256 :: addr / 256 :: p)] ∧
    (addr % 256 :: addr / 256 :: p).length ≤ 8 ∧
    pollCount (self._setRegisterValue (addr : Int) (arrayOf p) (p.length : Int)) = 0 := by
  have hlog : self._setRegisterValue (addr : Int) (arrayOf p) (p.length : Int) =
      [Event.beginExtendedPacket (toLong self._CAN_ID_SEND)]
        ++ ((addr % 256 :: addr / 256 :: p).map Event.write ++ [Event.endPacket]) := by
    rw [setRegisterValue_log, lowByte_address, highByte_address addr haddr, Int.toNat_ofNat,
      range_map_arrayOf p hb]
  refine ⟨hlog, ?_, by simp only [List.length_cons]; omega, ?_⟩
  · rw [hlog]
    simp only [List.singleton_append, List.map_cons, List.cons_append, framesOf,
      List.append_eq]
    rw [framesOf_writes]
    simp [framesOf]
  · rw [hlog, pollCount_append, pollCount_append]
    have : pollCount ((addr % 256 :: addr / 256 :: p).map Event.write) = 0 := by
      generalize (addr % 256 :: addr / 256 :: p) = l
      induction l with
      | nil => rfl
      | cons b rest ih =>
        simp only [pollCount, List.map_cons, List.countP_cons] at ih ⊢
        simp [ih]
    rw [this]
    simp [pollCount, List.countP_cons]

/-- Witness of C4: writing `[0xC0, 0x12]` to register 0x0020 on the device with
CAN address 3 emits the one frame `[0x20, 0x00, 0xC0, 0x12]` to 0x000C0303. -/
theorem C4_write_emits_one_frame_witness :
    framesOf (sampleDevice._setRegisterValue 0x0020 (arrayOf [0xC0, 0x12]) 2) none =
      [(0x000C0303, [0x20, 0x00, 0xC0, 0x12])] :=
  (C4_write_emits_one_frame sampleDevice 0x0020 [0xC0, 0x12] (by decide) (by decide)
    (by decide)).2.1

/-- C5, as stated, fails: a payload of 7 bytes is not rejected or truncated;
all 9 bytes (2 header bytes and 7 payload bytes) are handed to the controller
for the one frame. -/
theorem C5_long_payload_counterexample :
    ¬ writeCount (sampleDevice._setRegisterValue 0x0020 (arrayOf [1, 2, 3, 4, 5, 6, 7]) 7) ≤ 8 ∧
    framesOf (sampleDevice._setRegisterValue 0x0020 (arrayOf [1, 2, 3, 4, 5, 6, 7]) 7) none =
      [(0x000C0303, [0x20, 0x00, 1, 2, 3, 4, 5, 6, 7])] := by
  decide

/-- C5, amended. `_setRegisterValue` has no length check and no result: for
every register, array and length `len` it hands exactly `2 + len` bytes to the
controller between one `beginExtendedPacket` and one `endPacket`, the two
address bytes first; it stays within 8 bytes exactly when `len ≤ 6`. -/
theorem C5_write_hands_over_every_byte (self : BIC2200) (reg : Int) (data : Nat → Nat)
    (len : Int) :
    writeCount (self._setRegisterValue reg data len) = 2 + len.toNat ∧
    framesOf (self._setRegisterValue reg data len) none =
      [(toLong self._CAN_ID_SEND,
        lowByte reg :: highByte reg :: (List.range len.toNat).map (fun i => data i % 256))] ∧
    (writeCount (self._setRegisterValue reg data len) ≤ 8 ↔ len ≤ 6) := by
  have hc : writeCount (self._setRegisterValue reg data len) = 2 + len.toNat := by
    rw [setRegisterValue_log, writeCount_append, writeCount_append, writeCount_writes]
    simp [writeCount, List.countP_cons]
    omega
  refine ⟨hc, ?_, ?_⟩
  · rw [setRegisterValue_log]
    simp only [List.singleton_append, List.map_cons, List.cons_append, framesOf,
      List.append_eq]
    rw [framesOf_writes]
    simp [framesOf]
  · rw [hc]
    omega

theorem validate_log (w : IntWidth) (reg : Int) (st : LoopState) :
    (validate w reg st).log = st.log := by
  unfold validate
  by_cases he : echoMatches reg st.data_received = true
  · by_cases hv : st.blnDataValid = true <;> simp [he, hv]
  · simp [he]

theorem pollEvents_quiet (p : Poll) : ∀ e ∈ pollEvents p, e.isSend = false := by
  intro e he
  unfold pollEvents at he
  split at he
  · simp only [List.mem_singleton] at he
    subst he
    rfl
  · simp only [List.mem_cons, List.mem_singleton, List.not_mem_nil, or_false] at he
    rcases he with h | h <;> subst h <;> rfl

theorem reads_quiet (l : List Nat) : ∀ e ∈ l.map Event.read, e.isSend = false := by
  intro e he
  simp only [List.mem_map] at he
  obtain ⟨b, _, rfl⟩ := he
  rfl

theorem loopBody_log_quiet (w : IntWidth) (env : Env) (reg : Int) (k : Nat) (st : LoopState) :
    ∃ suf, (loopBody w env reg k st).log = st.log ++ suf ∧ ∀ e ∈ suf, e.isSend = false := by
  unfold loopBody
  simp only
  split
  · refine ⟨pollEvents (env.bus k)
      ++ ((env.bus k).avail.take (8 - st.index)).map Event.read, ?_, ?_⟩
    · rw [validate_log, drain_log_take]
      simp
    · intro e he
      rcases List.mem_append.mp he with h | h
      · exact pollEvents_quiet _ e h
      · exact reads_quiet _ e h
  · exact ⟨pollEvents (env.bus k), rfl, pollEvents_quiet _⟩

theorem pollLoop_log_quiet (w : IntWidth) (env : Env) (reg : Int) (s : Nat) :
    ∀ (fuel k : Nat) (st : LoopState),
      ∃ suf, (pollLoop w env reg s fuel k st).final.log = st.log ++ suf ∧
        ∀ e ∈ suf, e.isSend = false := by
  intro fuel
  induction fuel with
  | zero =>
    intro k st
    exact ⟨[], by simp [pollLoop], by simp⟩
  | succ fuel ih =>
    intro k st
    by_cases hc : (decide (elapsed (env.clock (k + 1) % 2 ^ 32) s < CAN_TIMEOUT)
        && st.blnDataValid) = true
    · obtain ⟨suf1, h1, q1⟩ := loopBody_log_quiet w env reg k
        { st with log := st.log ++ [Event.micros (env.clock (k + 1) % 2 ^ 32)] }
      obtain ⟨suf2, h2, q2⟩ := ih (k + 1) (loopBody w env reg k
        { st with log := st.log ++ [Event.micros (env.clock (k + 1) % 2 ^ 32)] })
      refine ⟨Event.micros (env.clock (k + 1) % 2 ^ 32) :: (suf1 ++ suf2), ?_, ?_⟩
      · simp only [pollLoop, hc, if_true]
        rw [h2, h1]
        simp
      · intro e he
        rcases List.mem_cons.mp he with h | h
        · subst h
          rfl
        · rcases List.mem_append.mp h with h | h
          · exact q1 e h
          · exact q2 e h
    · refine ⟨[Event.micros (env.clock (k + 1) % 2 ^ 32)], ?_, ?_⟩
      · simp only [pollLoop, hc]
        rfl
      · intro e he
        simp only [List.mem_singleton] at he
        subst he
        rfl

/-- C6. The request of a read: for a 16-bit address `addr`, any controller
behaviour and any number of loop iterations, the log of `_getRegisterValue`
starts with `beginExtendedPacket(_CAN_ID_SEND)`, `write(addr % 256)`,
`write(addr / 256)`, `endPacket`, followed by the clock reading that sets
`startTime`; everything after it (all polls) contains no further send call, so
the call emits exactly the one frame `[addr % 256, addr / 256]`. -/
theorem C6_read_emits_one_request (self : BIC2200) (w : IntWidth) (env : Env) (addr : Nat)
    (fuel : Nat) (haddr : addr < 65536) :
    ∃ rest,
      (self._getRegisterValue w env (addr : Int) fuel).final.log =
        [Event.beginExtendedPacket (toLong self._CAN_ID_SEND), Event.write (addr % 256),
         Event.write (addr / 256), Event.endPacket, Event.micros (env.clock 0 % 2 ^ 32)]
          ++ rest ∧
      (∀ e ∈ rest, e.isSend = false) ∧
      framesOf (self._getRegisterValue w env (addr : Int) fuel).final.log none =
        [(toLong self._CAN_ID_SEND, [addr % 256, addr / 256])] := by
  obtain ⟨suf, h, q⟩ := pollLoop_log_quiet w env (addr : Int) (env.clock 0 % 2 ^ 32) fuel 0
    (entryState self env (addr : Int))
  have hlog : (self._getRegisterValue w env (addr : Int) fuel).final.log =
      [Event.beginExtendedPacket (toLong self._CAN_ID_SEND), Event.write (addr % 256),
       Event.write (addr / 256), Event.endPacket, Event.micros (env.clock 0 % 2 ^ 32)]
        ++ suf := by
    unfold _getRegisterValue
    rw [h]
    simp only [entryState, requestLog, lowByte_address, highByte_address addr haddr]
    simp
  refine ⟨suf, hlog, q, ?_⟩
  rw [hlog]
  simp only [List.cons_append, List.nil_append, framesOf, List.append_eq]
  rw [framesOf_quiet suf q]

/-- Witness of C6: reading register 0x0062 on the device with CAN address 3
emits the single frame `[0x62, 0x00]` to 0x000C0303, whatever arrives. -/
theorem C6_read_emits_one_request_witness :
    framesOf (sampleDevice._getRegisterValue IntWidth.w16
        (sampleEnv 1 [0x62, 0x00, 0xD2, 0x00]) 0x0062 5).final.log none =
      [(0x000C0303, [0x62, 0x00])] := by
  obtain ⟨_, _, _, h⟩ := C6_read_emits_one_request sampleDevice IntWidth.w16
    (sampleEnv 1 [0x62, 0x00, 0xD2, 0x00]) 0x0062 5 (by decide)
  exact h

/-- C7. Identifier computation in `begin`: for a CAN address `a` below 256 the
object holds `_CAN_ID_SEND = 0x000C0300 + a` and
`_CAN_ID_RECEIVE = 0x000C0200 + a`, both within 32 bits (and unchanged when
passed on as `long`); `begin` returns what `CAN.begin` returned, and its only
calls are `setPins`, `setClockFrequency` and `begin` of the controller: no
frame is emitted. -/
theorem C7_begin_identifiers (self : BIC2200) (CS_Pin : Int) (a : Nat) (canBegin : Int)
    (ha : a < 256) :
    (self.begin CS_Pin a canBegin).self._CAN_ID_SEND = 0x000C0300 + a ∧
    (self.begin CS_Pin a canBegin).self._CAN_ID_RECEIVE = 0x000C0200 + a ∧
    (self.begin CS_Pin a canBegin).self._CAN_ID_SEND < 2 ^ 32 ∧
    (self.begin CS_Pin a canBegin).self._CAN_ID_RECEIVE < 2 ^ 32 ∧
    toLong (self.begin CS_Pin a canBegin).self._CAN_ID_SEND = ((0x000C0300 + a : Nat) : Int) ∧
    (self.begin CS_Pin a canBegin).ret = canBegin ∧
    (self.begin CS_Pin a canBegin).log =
      [Event.setPins CS_Pin, Event.setClockFrequency 8000000, Event.canBegin 250000] ∧
    framesOf (self.begin CS_Pin a canBegin).log none = [] := by
  have hs : (self.begin CS_Pin a canBegin).self._CAN_ID_SEND = 0x000C0300 + a := by
    simp only [begin, MSG_ID_CAN_SEND_00]
    omega
  have hr : (self.begin CS_Pin a canBegin).self._CAN_ID_RECEIVE = 0x000C0200 + a := by
    simp only [begin, MSG_ID_CAN_RECEIVE_00]
    omega
  refine ⟨hs, hr, ?_, ?_, ?_, rfl, rfl, rfl⟩
  · rw [hs]; omega
  · rw [hr]; omega
  · rw [hs]
    unfold toLong
    split <;> omega

/-- Witness of C7: CAN address 3 gives `_CAN_ID_SEND = 0x000C0303` and
`_CAN_ID_RECEIVE = 0x000C0203`. -/
theorem C7_begin_identifiers_witness :
    (begin { _CS := 0, _CAN_ID_RECEIVE := 0, _CAN_ID_SEND := 0 } 10 3 1).self._CAN_ID_SEND
      = 0x000C0303 ∧
    (begin { _CS := 0, _CAN_ID_RECEIVE := 0, _CAN_ID_SEND := 0 } 10 3 1).self._CAN_ID_RECEIVE
      = 0x000C0203 ∧
    (begin { _CS := 0, _CAN_ID_RECEIVE := 0, _CAN_ID_SEND := 0 } 10 3 1).ret = 1 := by
  have h := C7_begin_identifiers { _CS := 0, _CAN_ID_RECEIVE := 0, _CAN_ID_SEND := 0 } 10 3 1
    (by decide)
  exact ⟨h.1, h.2.1, h.2.2.2.2.2.1⟩

/-- C8 fails on the code: the loop does not stop after a matching frame. With
the reply `[0x62, 0x00, 0xD2, 0x00]` at the first poll and a frame
`[0x01, 0x02, 0x03, 0x04]` of other traffic at the second, the second frame is
read into `data_received` behind the first (8 reads, `index = 8`) and copied
out as well: the call returns 1 with six bytes `D2 00 01 02 03 04` assigned to
`data[0..5]`, where the reply alone gives `D2 00`. -/
theorem C8_later_frame_is_appended :
    (sampleDevice._getRegisterValue IntWidth.w16
      (twoFrameEnv [0x62, 0x00, 0xD2, 0x00] [0x01, 0x02, 0x03, 0x04]) 0x0062 6).ret = some 1 ∧
    (sampleDevice._getRegisterValue IntWidth.w16
      (twoFrameEnv [0x62, 0x00, 0xD2, 0x00] [0x01, 0x02, 0x03, 0x04]) 0x0062 6).final.stores
      = [(0, 0xD2), (1, 0x00),
         (0, 0xD2), (1, 0x00), (2, 0x01), (3, 0x02), (4, 0x03), (5, 0x04)] ∧
    (sampleDevice._getRegisterValue IntWidth.w16
      (twoFrameEnv [0x62, 0x00, 0xD2, 0x00] [0x01, 0x02, 0x03, 0x04]) 0x0062 6).final.index = 8 ∧
    readCount (sampleDevice._getRegisterValue IntWidth.w16
      (twoFrameEnv [0x62, 0x00, 0xD2, 0x00] [0x01, 0x02, 0x03, 0x04]) 0x0062 6).final.log = 8 ∧
    pollCount (sampleDevice._getRegisterValue IntWidth.w16
      (twoFrameEnv [0x62, 0x00, 0xD2, 0x00] [0x01, 0x02, 0x03, 0x04]) 0x0062 6).final.log = 4 ∧
    (sampleDevice._getRegisterValue IntWidth.w16
      (sampleEnv 0 [0x62, 0x00, 0xD2, 0x00]) 0x0062 6).final.stores = [(0, 0xD2), (1, 0x00)] := by
  decide

theorem foldl_setByte_lt (stores : List (Nat × Nat)) :
    ∀ (m : Nat → Nat), (∀ i, m i < 256) →
      ∀ i, stores.foldl (fun m s => setByte m s.1 s.2) m i < 256 := by
  induction stores with
  | nil => intro m hm i; exact hm i
  | cons s rest ih =>
    intro m hm i
    simp only [List.foldl_cons]
    apply ih
    intro j
    unfold setByte
    split
    · exact Nat.mod_lt _ (by decide)
    · exact hm j

theorem dataAfter_lt (init : Nat → Nat) (stores : List (Nat × Nat)) (i : Nat) :
    dataAfter init stores i < 256 :=
  foldl_setByte_lt stores _ (fun j => Nat.mod_lt _ (by decide)) i

theorem decode_exact (w : IntWidth) (d0 d1 : Nat) (h0 : d0 < 256) (h1 : d1 < 256)
    (hw : w = IntWidth.w32 ∨ d1 < 128) :
    wrapInt w (wrapInt w ((d1 <<< 8 : Nat) : Int) + ((d0 : Nat) : Int))
      = ((d0 + 256 * d1 : Nat) : Int) := by
  rcases hw with rfl | hlt
  · simp only [wrapInt, IntWidth.bits, Nat.shiftLeft_eq]
    omega
  · cases w <;> simp only [wrapInt, IntWidth.bits, Nat.shiftLeft_eq] <;> omega

theorem getInt16_failure (self : BIC2200) (w : IntWidth) (env : Env) (reg : Int) (fuel : Nat)
    (h : (self._getRegisterValue w env reg fuel).ret = some 0) :
    self.getInt16 w env reg fuel = some (-1) := by
  simp [getInt16, h]

theorem getInt16_success (self : BIC2200) (w : IntWidth) (env : Env) (reg : Int) (fuel : Nat)
    (rv : Int) (h : (self._getRegisterValue w env reg fuel).ret = some rv) (hrv : rv ≠ 0)
    (hw : w = IntWidth.w32 ∨
      dataAfter env.caller (self._getRegisterValue w env reg fuel).final.stores 1 < 128) :
    self.getInt16 w env reg fuel =
      some ((dataAfter env.caller (self._getRegisterValue w env reg fuel).final.stores 0
        + 256 * dataAfter env.caller (self._getRegisterValue w env reg fuel).final.stores 1
          : Nat) : Int) := by
  simp only [getInt16, h, Option.map_some', hrv, ne_eq, not_false_eq_true, if_true]
  rw [decode_exact w _ _ (dataAfter_lt _ _ 0) (dataAfter_lt _ _ 1) hw]

theorem intGetters_eq (g : BIC2200 → IntWidth → Env → Nat → Option Int) (reg : Int)
    (hg : (g, reg) ∈ intGetters) :
    ∀ self w env fuel, g self w env fuel = self.getInt16 w env reg fuel := by
  simp only [intGetters, List.mem_cons, Prod.mk.injEq, List.mem_singleton, List.not_mem_nil,
    or_false] at hg
  rcases hg with h | h | h | h | h | h | h | h <;> obtain ⟨rfl, rfl⟩ := h <;>
    intro self w env fuel <;> rfl

/-- C9 fails on a target with 16-bit `int`: the reply `[0x20, 0x00, 0xFF, 0xFF]`
is read successfully (`_getRegisterValue` returns 1 with payload `FF FF`), and
`getOutputVoltage` returns -1, the failure value; `(data[1] << 8) + data[0]` is
computed in `int`. The payload `[0x00, 0x80]` comes back as -32768. -/
theorem C9_sentinel_collision_int16 :
    (sampleDevice._getRegisterValue IntWidth.w16 (sampleEnv 0 [0x20, 0x00, 0xFF, 0xFF])
      CMD_VOUT_SET 6).ret = some 1 ∧
    (sampleDevice._getRegisterValue IntWidth.w16 (sampleEnv 0 [0x20, 0x00, 0xFF, 0xFF])
      CMD_VOUT_SET 6).final.stores = [(0, 0xFF), (1, 0xFF)] ∧
    sampleDevice.getOutputVoltage IntWidth.w16 (sampleEnv 0 [0x20, 0x00, 0xFF, 0xFF]) 6
      = some (-1) ∧
    sampleDevice.getOutputVoltage IntWidth.w16 (sampleEnv 0 [0x20, 0x00, 0x00, 0x80]) 6
      = some (-32768) ∧
    sampleDevice.getOutputVoltage IntWidth.w32 (sampleEnv 0 [0x20, 0x00, 0xFF, 0xFF]) 6
      = some 65535 := by
  decide

/-- C9, amended. For each of the eight integer getters `g` over a two-byte
register `reg`: when the register read reports failure (returns 0) the getter
returns -1; when it reports success and the caller's array then holds
`b0, b1`, the getter returns `b0 + 256 * b1`, a value in `0..65535` and so
different from -1, provided `int` has 32 bits or `b1 < 128`. -/
theorem C9_getter_decodes (g : BIC2200 → IntWidth → Env → Nat → Option Int) (reg : Int)
    (hg : (g, reg) ∈ intGetters) (self : BIC2200) (w : IntWidth) (env : Env) (fuel : Nat)
    (rv : Int) (hret : (self._getRegisterValue w env reg fuel).ret = some rv) :
    (rv = 0 → g self w env fuel = some (-1)) ∧
    (rv ≠ 0 →
      (w = IntWidth.w32 ∨
        dataAfter env.caller (self._getRegisterValue w env reg fuel).final.stores 1 < 128) →
      g self w env fuel =
        some ((dataAfter env.caller (self._getRegisterValue w env reg fuel).final.stores 0
          + 256 * dataAfter env.caller (self._getRegisterValue w env reg fuel).final.stores 1
            : Nat) : Int) ∧
      dataAfter env.caller (self._getRegisterValue w env reg fuel).final.stores 0
          + 256 * dataAfter env.caller (self._getRegisterValue w env reg fuel).final.stores 1
        ≤ 65535 ∧
      g self w env fuel ≠ some (-1)) := by
  have hg2 := intGetters_eq g reg hg self w env fuel
  refine ⟨fun h0 => ?_, fun hne hw => ?_⟩
  · rw [hg2]
    exact getInt16_failure self w env reg fuel (by rw [hret, h0])
  · have hs := getInt16_success self w env reg fuel rv hret hne hw
    have l0 := dataAfter_lt env.caller (self._getRegisterValue w env reg fuel).final.stores 0
    have l1 := dataAfter_lt env.caller (self._getRegisterValue w env reg fuel).final.stores 1
    refine ⟨by rw [hg2, hs], by omega, ?_⟩
    rw [hg2, hs]
    intro hcontra
    have := Option.some.inj hcontra
    omega

/-- Witness of C9: the reply `[0x20, 0x00, 0xC0, 0x12]` makes `getOutputVoltage`
return 4800 on a 16-bit target. -/
theorem C9_getter_decodes_witness :
    sampleDevice.getOutputVoltage IntWidth.w16 (sampleEnv 0 [0x20, 0x00, 0xC0, 0x12]) 6
      = some 4800 :=
  ((C9_getter_decodes getOutputVoltage CMD_VOUT_SET (List.Mem.head _) sampleDevice
    IntWidth.w16 (sampleEnv 0 [0x20, 0x00, 0xC0, 0x12]) 6 1 (by decide)).2 (by decide)
    (Or.inr (by decide))).1

theorem copyOut_length (w : IntWidth) (index : Nat) (buf : Nat → Nat) :
    (copyOut w index buf).length = wrapUInt w ((index : Int) - 2) := by
  simp [copyOut]

theorem loopBody_short (w : IntWidth) (env : Env) (reg : Int) (k : Nat) (st : LoopState)
    (harr : (env.bus k).arrived = true) (hshort : (env.bus k).avail.length < 2)
    (h0 : st.index = 0) (hv : st.blnDataValid = true)
    (he : lowByte reg = st.data_received 0 ∧ highByte reg = st.data_received 1)
    (hb : ∀ b ∈ (env.bus k).avail, b = lowByte reg) :
    (loopBody w env reg k st).retVal = 1 ∧ (loopBody w env reg k st).blnDataValid = true ∧
    (loopBody w env reg k st).index = (env.bus k).avail.length ∧
    (loopBody w env reg k st).stores.length
      = st.stores.length + wrapUInt w (((env.bus k).avail.length : Int) - 2) := by
  have hbody : loopBody w env reg k st = validate w reg
      (drain (env.bus k).avail { st with log := st.log ++ pollEvents (env.bus k) }) := by
    simp only [loopBody, harr, if_true]
  have hidx : (drain (env.bus k).avail
      { st with log := st.log ++ pollEvents (env.bus k) }).index = (env.bus k).avail.length := by
    rw [drain_index _ _ (by simp only [h0]; omega)]
    simp only [h0, Nat.zero_add]
  have hecho : echoMatches reg (drain (env.bus k).avail
      { st with log := st.log ++ pollEvents (env.bus k) }).data_received = true := by
    rcases hl : (env.bus k).avail with _ | ⟨b, _ | ⟨c, rest⟩⟩
    · simp [drain, echoMatches, he.1, he.2]
    · have hbb : b = lowByte reg := hb b (by rw [hl]; simp)
      have hlt := lowByte_lt reg
      simp [drain, h0, echoMatches, setByte, hbb, Nat.mod_eq_of_lt hlt, ← he.2]
    · rw [hl] at hshort
      simp only [List.length_cons] at hshort
      omega
  rw [hbody, validate_match w reg _ (by rw [drain_blnDataValid]; exact hv) hecho]
  refine ⟨rfl, by rw [drain_blnDataValid]; exact hv, hidx, ?_⟩
  simp only [List.length_append, copyOut_length, drain_stores, hidx]

theorem short_frame_run (self : BIC2200) (w : IntWidth) (env : Env) (reg : Int) (n : Nat)
    (harr : (env.bus 0).arrived = true) (hshort : (env.bus 0).avail.length < 2)
    (hstack : lowByte reg = env.stack 0 % 256 ∧ highByte reg = env.stack 1 % 256)
    (hb : ∀ b ∈ (env.bus 0).avail, b = lowByte reg)
    (hidle : ∀ i, i < n → (env.bus (1 + i)).arrived = false)
    (hclk : ∀ i, i < n + 1 → elapsed (env.clock (i + 1)) (env.clock 0) < CAN_TIMEOUT)
    (hend : CAN_TIMEOUT ≤ elapsed (env.clock (n + 2)) (env.clock 0))
    (fuel : Nat) (hfuel : n + 1 < fuel) :
    (self._getRegisterValue w env reg fuel).ret = some 1 ∧
    (self._getRegisterValue w env reg fuel).final.index = (env.bus 0).avail.length ∧
    (self._getRegisterValue w env reg fuel).final.stores.length
      = wrapUInt w (((env.bus 0).avail.length : Int) - 2) := by
  obtain ⟨f, rfl⟩ : ∃ f, fuel = (n + (f + 1)) + 1 := ⟨fuel - n - 2, by omega⟩
  unfold _getRegisterValue
  rw [pollLoop_step w env reg _ _ 0 _
    (by rw [elapsed_mod_right]; exact hclk 0 (by omega)) rfl]
  obtain ⟨h1, h2, h3, h4⟩ := loopBody_short w env reg 0
    { entryState self env reg with
      log := (entryState self env reg).log ++ [Event.micros (env.clock (0 + 1) % 2 ^ 32)] }
    harr hshort rfl rfl hstack hb
  rw [pollLoop_idle_timeout w env reg _ n f (0 + 1) _ h2
    (fun i hi => by
      have := hclk (i + 1) (by omega)
      rw [elapsed_mod_right]
      rwa [show 0 + 1 + i + 1 = i + 1 + 1 by omega])
    (fun i hi => by
      have := hidle i hi
      rwa [show 0 + 1 + i = 1 + i by omega])
    (by
      rw [elapsed_mod_right]
      rwa [show 0 + 1 + n + 1 = n + 2 by omega])]
  refine ⟨congrArg some h1, h3, ?_⟩
  rw [h4]
  simp [entryState]

/-- C10 fails on the code: the echo test reads `data_received[0]` and
`data_received[1]` whether or not two bytes were received. For register
0x0000, with zeros in the memory of `data_received`, a frame without data
bytes is accepted: the call returns 1 with `index = 0`, and the copy loop, whose
bound `index - 2` is computed in `unsigned int`, makes 65534 assignments to
the caller's array on a 16-bit target (4294967294 on a 32-bit one). A frame
with the single byte `0x00` is accepted likewise (`index = 1`, 65535
assignments). -/
theorem C10_short_frame_is_accepted :
    (sampleDevice._getRegisterValue IntWidth.w16 (zeroStackEnv []) 0x0000 6).ret = some 1 ∧
    (sampleDevice._getRegisterValue IntWidth.w16 (zeroStackEnv []) 0x0000 6).final.index = 0 ∧
    (sampleDevice._getRegisterValue IntWidth.w16 (zeroStackEnv []) 0x0000 6).final.stores.length
      = 65534 ∧
    (sampleDevice._getRegisterValue IntWidth.w32 (zeroStackEnv []) 0x0000 6).final.stores.length
      = 4294967294 ∧
    (sampleDevice._getRegisterValue IntWidth.w16 (zeroStackEnv [0x00]) 0x0000 6).ret = some 1 ∧
    (sampleDevice._getRegisterValue IntWidth.w16 (zeroStackEnv [0x00]) 0x0000 6).final.index = 1 ∧
    (sampleDevice._getRegisterValue IntWidth.w16 (zeroStackEnv [0x00]) 0x0000 6).final.stores.length
      = 65535 := by
  obtain ⟨a1, a2, a3⟩ := short_frame_run sampleDevice IntWidth.w16 (zeroStackEnv []) 0x0000 3
    (by decide) (by decide) (by decide) (by decide) (by decide) (by decide) (by decide)
    6 (by decide)
  obtain ⟨_, _, b3⟩ := short_frame_run sampleDevice IntWidth.w32 (zeroStackEnv []) 0x0000 3
    (by decide) (by decide) (by decide) (by decide) (by decide) (by decide) (by decide)
    6 (by decide)
  obtain ⟨c1, c2, c3⟩ := short_frame_run sampleDevice IntWidth.w16 (zeroStackEnv [0x00]) 0x0000 3
    (by decide) (by decide) (by decide) (by decide) (by decide) (by decide) (by decide)
    6 (by decide)
  exact ⟨a1, a2, a3, b3, c1, c2, c3⟩

theorem elapsed_after (s d : Nat) (hd : d < 2 ^ 32) : elapsed (s + d) s = d := by
  unfold elapsed
  omega

/-- C12. The elapsed-time test across wrap-around of the 32-bit counter: when
the clock reading of the `k`-th evaluation of the loop condition is taken `d`
ticks after the reading that set `startTime`, with `d < 2 ^ 32`, the unsigned
difference `micros() - startTime` equals `d`, whether or not the counter wrapped
in between; so the test `(micros() - startTime) < CAN_TIMEOUT` holds exactly
when `d < 500`: with valid data the loop runs its body for `d < 500` and returns
for `500 ≤ d`. -/
theorem C12_elapsed_across_wraparound (w : IntWidth) (env : Env) (reg : Int) (fuel k : Nat)
    (st : LoopState) (d : Nat) (hd : d < 2 ^ 32)
    (ht : env.clock (k + 1) = env.clock 0 + d) (hv : st.blnDataValid = true) :
    elapsed (env.clock (k + 1) % 2 ^ 32) (env.clock 0 % 2 ^ 32) = d ∧
    (elapsed (env.clock (k + 1) % 2 ^ 32) (env.clock 0 % 2 ^ 32) < CAN_TIMEOUT ↔ d < 500) ∧
    (d < 500 →
      pollLoop w env reg (env.clock 0 % 2 ^ 32) (fuel + 1) k st =
        pollLoop w env reg (env.clock 0 % 2 ^ 32) fuel (k + 1)
          (loopBody w env reg k
            { st with log := st.log ++ [Event.micros (env.clock (k + 1) % 2 ^ 32)] })) ∧
    (500 ≤ d →
      pollLoop w env reg (env.clock 0 % 2 ^ 32) (fuel + 1) k st =
        { ret := some st.retVal
          final :=
            { st with log := st.log ++ [Event.micros (env.clock (k + 1) % 2 ^ 32)] } }) := by
  have he : elapsed (env.clock (k + 1) % 2 ^ 32) (env.clock 0 % 2 ^ 32) = d := by
    rw [elapsed_mod_left, elapsed_mod_right, ht]
    exact elapsed_after _ _ hd
  have he2 : elapsed (env.clock (k + 1)) (env.clock 0 % 2 ^ 32) = d := by
    rw [← elapsed_mod_left]
    exact he
  refine ⟨he, ?_, fun hlt => ?_, fun hge => ?_⟩
  · rw [he]
    simp only [CAN_TIMEOUT]
  · exact pollLoop_step w env reg _ fuel k st (by rw [he2]; simpa [CAN_TIMEOUT] using hlt) hv
  · exact pollLoop_timeout w env reg _ fuel k st (by rw [he2]; simpa [CAN_TIMEOUT] using hge)

/-- Witness of C12: `startTime` is read 100 ticks before the counter wraps, the
next reading 300 ticks later shows 200; the difference is 300 and the loop goes
on. The reading after that, 600 ticks after the start, ends the call. -/
theorem C12_elapsed_across_wraparound_witness :
    wrapEnv.clock 0 % 2 ^ 32 = 4294967196 ∧ wrapEnv.clock 1 % 2 ^ 32 = 200 ∧
    elapsed (wrapEnv.clock 1 % 2 ^ 32) (wrapEnv.clock 0 % 2 ^ 32) = 300 ∧
    (elapsed (wrapEnv.clock 1 % 2 ^ 32) (wrapEnv.clock 0 % 2 ^ 32) < CAN_TIMEOUT ↔ 300 < 500) ∧
    (sampleDevice._getRegisterValue IntWidth.w16 wrapEnv 0x0062 1).ret = none ∧
    (sampleDevice._getRegisterValue IntWidth.w16 wrapEnv 0x0062 2).ret = some 0 := by
  have h := C12_elapsed_across_wraparound IntWidth.w16 wrapEnv 0x0062 0 0
    (entryState sampleDevice wrapEnv 0x0062) 300 (by decide) (by decide) rfl
  exact ⟨by decide, by decide, h.1, h.2.1, by decide, by decide⟩

theorem read_reply_run (self : BIC2200) (w : IntWidth) (env : Env) (reg : Int)
    (p : List Nat) (j n : Nat) (hp : p.length ≤ 6) (hb : ∀ b ∈ p, b < 256) (hj : j < n)
    (hclk : ∀ i, i < n → elapsed (env.clock (i + 1)) (env.clock 0) < CAN_TIMEOUT)
    (hend : CAN_TIMEOUT ≤ elapsed (env.clock (n + 1)) (env.clock 0))
    (harr : (env.bus j).arrived = true)
    (hav : (env.bus j).avail = lowByte reg :: highByte reg :: p)
    (hidle : ∀ i, i < n → i ≠ j → (env.bus i).arrived = false)
    (fuel : Nat) (hfuel : n < fuel) :
    (self._getRegisterValue w env reg fuel).ret = some 1 ∧
    (self._getRegisterValue w env reg fuel).final.stores
      = List.zip (List.range p.length) p := by
  obtain ⟨f, rfl⟩ : ∃ f, fuel = j + ((n - j - 1) + (f + 1) + 1) := ⟨fuel - n - 1, by omega⟩
  have hclk2 : ∀ i, i < n → elapsed (env.clock (i + 1)) (env.clock 0 % 2 ^ 32) < CAN_TIMEOUT := by
    intro i hi
    rw [elapsed_mod_right]
    exact hclk i hi
  have hend2 : CAN_TIMEOUT ≤ elapsed (env.clock (n + 1)) (env.clock 0 % 2 ^ 32) := by
    rw [elapsed_mod_right]
    exact hend
  unfold _getRegisterValue
  rw [pollLoop_idle w env reg _ j _ 0 (entryState self env reg) rfl
    (fun i hi => by simpa using hclk2 i (by omega))
    (fun i hi => by simpa using hidle i (by omega) (by omega))]
  rw [pollLoop_step w env reg _ _ (0 + j) _ (by simpa using hclk2 j hj) rfl]
  obtain ⟨h1, h2, _, h4, _⟩ := loopBody_reply w env reg (0 + j)
    { entryState self env reg with
      log := ((entryState self env reg).log ++ idleLog env 0 j)
        ++ [Event.micros (env.clock (0 + j + 1) % 2 ^ 32)] } p rfl rfl
    (by simpa using harr) (by simpa using hav) hp hb
  rw [pollLoop_idle_timeout w env reg _ (n - j - 1) f (0 + j + 1) _ h2
    (fun i hi => by
      have := hclk2 (j + 1 + i) (by omega)
      rwa [show 0 + j + 1 + i + 1 = j + 1 + i + 1 by omega])
    (fun i hi => by
      have := hidle (j + 1 + i) (by omega) (by omega)
      rwa [show 0 + j + 1 + i = j + 1 + i by omega])
    (by rwa [show 0 + j + 1 + (n - j - 1) + 1 = n + 1 by omega])]
  simp only [h1, h4]
  simp [entryState]

theorem lowByte_wrapInt (w : IntWidth) (v : Nat) :
    lowByte (wrapInt w (v : Int)) = v % 256 := by
  cases w <;> simp only [lowByte, wrapInt, IntWidth.bits] <;> omega

theorem highByte_wrapInt (w : IntWidth) (v : Nat) (hv : v ≤ 65535) :
    highByte (wrapInt w (v : Int)) = v / 256 := by
  cases w <;> simp only [highByte, wrapInt, IntWidth.bits] <;> omega

theorem decode_wrap (w : IntWidth) (v : Nat) :
    wrapInt w (wrapInt w (((v / 256) <<< 8 : Nat) : Int) + ((v % 256 : Nat) : Int))
      = wrapInt w (v : Int) := by
  cases w <;> simp only [wrapInt, IntWidth.bits, Nat.shiftLeft_eq] <;> omega

theorem wrapInt_exact (w : IntWidth) (v : Nat) (hv : v ≤ 65535)
    (hw : w = IntWidth.w32 ∨ v < 32768) : wrapInt w (v : Int) = (v : Int) := by
  rcases hw with rfl | hlt
  · simp only [wrapInt, IntWidth.bits]
    omega
  · cases w <;> simp only [wrapInt, IntWidth.bits] <;> omega

theorem setInt16_frames (self : BIC2200) (w : IntWidth) (reg : Int) (v : Nat)
    (hv : v ≤ 65535) :
    framesOf (self.setInt16 w reg (v : Int)) none =
      [(toLong self._CAN_ID_SEND, [lowByte reg, highByte reg, v % 256, v / 256])] := by
  have h1 : v % 256 % 256 = v % 256 := Nat.mod_mod _ _
  have h2 : v / 256 % 256 = v / 256 := Nat.mod_eq_of_lt (by omega)
  simp only [setInt16, _setRegisterValue, lowByte_wrapInt, highByte_wrapInt w v hv]
  simp [framesOf, arrayOf, List.range_succ, h1, h2]

theorem setGetPairs_eq (set : BIC2200 → IntWidth → Int → List Event)
    (get : BIC2200 → IntWidth → Env → Nat → Option Int) (reg : Int)
    (hpair : (set, get, reg) ∈ setGetPairs) :
    (∀ self w v, set self w v = self.setInt16 w reg v) ∧
    (∀ self w env fuel, get self w env fuel = self.getInt16 w env reg fuel) := by
  simp only [setGetPairs, List.mem_cons, Prod.mk.injEq, List.mem_singleton, List.not_mem_nil,
    or_false] at hpair
  rcases hpair with h | h | h | h | h | h <;> obtain ⟨rfl, rfl, rfl⟩ := h <;>
    exact ⟨fun _ _ _ => rfl, fun _ _ _ _ => rfl⟩

/-- C11 fails on a target with 16-bit `int`: `setOutputVoltage(40000)` emits the
frame `[0x20, 0x00, 0x40, 0x9C]`, and when the device answers the following
`getOutputVoltage` with the matching echo and that payload, the getter returns
-25536, not 40000 (with 32-bit `int` it returns 40000). -/
theorem C11_round_trip_int16_counterexample :
    framesOf (sampleDevice.setOutputVoltage IntWidth.w16 40000) none
      = [(0x000C0303, [0x20, 0x00, 0x40, 0x9C])] ∧
    sampleDevice.getOutputVoltage IntWidth.w16 (sampleEnv 0 [0x20, 0x00, 0x40, 0x9C]) 6
      = some (-25536) ∧
    sampleDevice.getOutputVoltage IntWidth.w16 (sampleEnv 0 [0x20, 0x00, 0x40, 0x9C]) 6
      ≠ some 40000 ∧
    sampleDevice.getOutputVoltage IntWidth.w32 (sampleEnv 0 [0x20, 0x00, 0x40, 0x9C]) 6
      = some 40000 := by
  decide

/-- C11, amended. For each of the six set/get pairs over a two-byte register
`reg` and every value `v` in `0..65535`: the setter emits the one frame
`[lowByte reg, highByte reg, v % 256, v / 256]`; and when the single frame that
arrives during the following read carries the matching echo and that payload,
the getter returns `v` as an `int`: `v` itself when `int` has 32 bits or
`v < 32768`. -/
theorem C11_set_get_round_trip (set : BIC2200 → IntWidth → Int → List Event)
    (get : BIC2200 → IntWidth → Env → Nat → Option Int) (reg : Int)
    (hpair : (set, get, reg) ∈ setGetPairs)
    (self : BIC2200) (w : IntWidth) (env : Env) (v j n : Nat) (hv : v ≤ 65535) (hj : j < n)
    (hclk : ∀ i, i < n → elapsed (env.clock (i + 1)) (env.clock 0) < CAN_TIMEOUT)
    (hend : CAN_TIMEOUT ≤ elapsed (env.clock (n + 1)) (env.clock 0))
    (harr : (env.bus j).arrived = true)
    (hav : (env.bus j).avail = [lowByte reg, highByte reg, v % 256, v / 256])
    (hidle : ∀ i, i < n → i ≠ j → (env.bus i).arrived = false)
    (fuel : Nat) (hfuel : n < fuel) :
    framesOf (set self w (v : Int)) none =
      [(toLong self._CAN_ID_SEND, [lowByte reg, highByte reg, v % 256, v / 256])] ∧
    get self w env fuel = some (wrapInt w (v : Int)) ∧
    (w = IntWidth.w32 ∨ v < 32768 → get self w env fuel = some (v : Int)) := by
  obtain ⟨hset, hget⟩ := setGetPairs_eq set get reg hpair
  have hlo : v % 256 < 256 := Nat.mod_lt _ (by decide)
  have hhi : v / 256 < 256 := by omega
  obtain ⟨hret, hstores⟩ := read_reply_run self w env reg [v % 256, v / 256] j n
    (by simp)
    (by
      intro b hb
      simp only [List.mem_cons, List.mem_singleton, List.not_mem_nil, or_false] at hb
      rcases hb with h | h <;> rw [h] <;> assumption)
    hj hclk hend harr hav hidle fuel hfuel
  have hval : get self w env fuel = some (wrapInt w (v : Int)) := by
    rw [hget]
    simp only [getInt16, hret, hstores, Option.map_some']
    have hd0 : dataAfter env.caller
        (List.zip (List.range [v % 256, v / 256].length) [v % 256, v / 256]) 0 = v % 256 := by
      simp [dataAfter, setByte, List.range_succ]
    have hd1 : dataAfter env.caller
        (List.zip (List.range [v % 256, v / 256].length) [v % 256, v / 256]) 1 = v / 256 := by
      simp [dataAfter, setByte, List.range_succ, Nat.mod_eq_of_lt hhi]
    rw [hd0, hd1, decode_wrap w v]
    simp
  refine ⟨?_, hval, fun hw => ?_⟩
  · rw [hset]
    exact setInt16_frames self w reg v hv
  · rw [hval, wrapInt_exact w v hv hw]

/-- Witness of C11: `setOutputVoltage(4800)` emits `[0x20, 0x00, 0xC0, 0x12]`,
and with that reply `getOutputVoltage` returns 4800, on a 16-bit target. -/
theorem C11_set_get_round_trip_witness :
    framesOf (sampleDevice.setOutputVoltage IntWidth.w16 4800) none
      = [(0x000C0303, [0x20, 0x00, 0xC0, 0x12])] ∧
    sampleDevice.getOutputVoltage IntWidth.w16 (sampleEnv 1 [0x20, 0x00, 0xC0, 0x12]) 5
      = some 4800 := by
  have h := C11_set_get_round_trip setOutputVoltage getOutputVoltage CMD_VOUT_SET
    (List.Mem.head _) sampleDevice IntWidth.w16 (sampleEnv 1 [0x20, 0x00, 0xC0, 0x12])
    4800 1 4 (by decide) (by decide) (by decide) (by decide) (by decide) (by decide)
    (by decide) 5 (by decide)
  exact ⟨h.1, h.2.2 (Or.inr (by decide))⟩

end BIC2200
